import Mathlib

/-!
Verification of the timetable router, the class-activity router, the
timetable scheduling service and the activity seed generator of a
school-management web application.

Modelling conventions used throughout this development:

* Times of day.  The source stores period times as date objects anchored to
  1970-01-01 and compares break times as zero-padded "HH:mm" strings; for
  such values lexicographic string order, date order and minute order all
  coincide, so a time of day is embedded as its count of minutes (a `Nat`).
* The relational store is embedded as explicit record lists inside a state
  structure; `findFirst` / `findUnique` become `List.find?`, `createMany`
  becomes list append, `deleteMany` becomes `List.filter`, and `update`
  keyed on a unique id maps the matching record to its updated value.
* Generated record identifiers (cuid values in the store) are modelled by a
  `nextId` counter rendered through `freshId`.
* Failing procedures return an error value next to the final state, so that
  partial writes performed before a throw stay observable.
-/

/-- Identifier generation of the persistence layer: the store assigns a fresh
opaque id to every created row; modelled from a counter. -/
def freshId (n : Nat) : String := "gen" ++ Nat.repr n

/-- Minutes-since-midnight embedding of a time of day (see the header note). -/
abbrev Time := Nat

/-- Minimal JSON value tree used for schemaless columns (activity
configuration payloads of the seed and submission content). -/
inductive Json where
  | str : String → Json
  | num : Int → Json
  | arr : List Json → Json
  | obj : List (String × Json) → Json

/-- Error codes of the TRPCError values raised by the routers. -/
inductive TrpcCode where
  | CONFLICT
  | NOT_FOUND
  | INTERNAL_SERVER_ERROR
deriving DecidableEq

/-- A TRPCError as thrown by the routers: a code and a message. -/
structure TrpcError where
  code : TrpcCode
  message : String
deriving DecidableEq

namespace TT

/-- Input shape consumed by checkAvailability of the timetable router: the
router iterates `input.period.daysOfWeek`, so its effective period input
carries an array of days (the UI builds exactly this shape). -/
structure PeriodInput where
  startTime : Time
  endTime : Time
  daysOfWeek : List Nat
  durationInMinutes : Nat
  subjectId : String
  teacherId : String
  classroomId : String
deriving DecidableEq

/-- Break-time entry supplied to checkAvailability (startTime, endTime,
dayOfWeek). -/
structure BreakTimeInput where
  startTime : Time
  endTime : Time
  dayOfWeek : Nat
deriving DecidableEq

/-- Entry of the timetableInputSchema breakTimes array. -/
structure BreakTimeSchemaInput where
  startTime : Time
  endTime : Time
  type : String
  dayOfWeek : Nat
deriving DecidableEq

/-- Entry of the timetableInputSchema periods array (periodInputSchema: a
single dayOfWeek). -/
structure PeriodRecordInput where
  startTime : Time
  endTime : Time
  dayOfWeek : Nat
  subjectId : String
  teacherId : String
  classroomId : String
  durationInMinutes : Nat
deriving DecidableEq

/-- Input of the timetable create procedure (timetableInputSchema). -/
structure TimetableInput where
  termId : String
  classGroupId : String
  classId : String
  academicCalendarId : String
  startTime : Time
  endTime : Time
  breakTimes : List BreakTimeSchemaInput
  periods : List PeriodRecordInput
deriving DecidableEq

/-- Persisted Period row.  `timetableId` is an `Option` because the
recreation path of updatePeriod connects the timetable through a lookup
performed after the row was deleted, producing an absent value. -/
structure Period where
  id : String
  startTime : Time
  endTime : Time
  dayOfWeek : Nat
  durationInMinutes : Nat
  subjectId : String
  teacherId : String
  classroomId : String
  timetableId : Option String
deriving DecidableEq

/-- Persisted Timetable row: linked to a class or a class group, and a term. -/
structure Timetable where
  id : String
  classId : Option String
  classGroupId : Option String
  termId : String
deriving DecidableEq

/-- Persisted Class row (only the name is read by the router, for the
additionalInfo annotation of a conflict). -/
structure SchoolClass where
  id : String
  name : String
deriving DecidableEq

/-- Persisted TeacherProfile row: profile id plus the owning user id. -/
structure TeacherProfile where
  id : String
  userId : String
deriving DecidableEq

/-- Persisted break_times row. -/
structure StoredBreakTime where
  startTime : Time
  endTime : Time
  type : String
  dayOfWeek : Nat
  timetableId : String
deriving DecidableEq

/-- State visible to the timetable router. -/
structure DB where
  periods : List Period
  timetables : List Timetable
  classes : List SchoolClass
  teacherProfiles : List TeacherProfile
  breakTimes : List StoredBreakTime
  nextId : Nat
deriving DecidableEq

/-- Exclusive overlap helper of the domain types: start1 < end2 AND
end1 > start2. -/
def isTimeOverlapping (start1 end1 start2 end2 : Time) : Bool :=
  decide (start1 < end2) && decide (end1 > start2)

/-- Conflict kinds reported by an availability check. -/
inductive ConflictType where
  | TEACHER
  | CLASSROOM
  | BREAK_TIME
deriving DecidableEq

/-- Details carried by a reported conflict. -/
structure ConflictDetails where
  startTime : Time
  endTime : Time
  dayOfWeek : Nat
  entityId : String
  additionalInfo : Option String
deriving DecidableEq

/-- One conflict entry of the availability check result. -/
structure ScheduleConflict where
  type : ConflictType
  details : ConflictDetails
deriving DecidableEq

/-- Result shape of checkAvailability. -/
structure AvailabilityCheck where
  isAvailable : Bool
  conflicts : List ScheduleConflict
deriving DecidableEq

/-- Where-clause of the teacher conflict query: same teacher, same day, and
the inclusive comparison startTime lte candidate end AND endTime gte
candidate start. -/
def teacherWhere (pI : PeriodInput) (day : Nat) (q : Period) : Bool :=
  q.teacherId == pI.teacherId && q.dayOfWeek == day &&
    (decide (q.startTime ≤ pI.endTime) && decide (q.endTime ≥ pI.startTime))

/-- Where-clause of the classroom conflict query (same inclusive bounds). -/
def classroomWhere (pI : PeriodInput) (day : Nat) (q : Period) : Bool :=
  q.classroomId == pI.classroomId && q.dayOfWeek == day &&
    (decide (q.startTime ≤ pI.endTime) && decide (q.endTime ≥ pI.startTime))

/-- Name of the class attached to the timetable of a period, used in the
additionalInfo annotation (empty when the relation chain is absent). -/
def classNameOfPeriod (db : DB) (q : Period) : String :=
  match q.timetableId.bind (fun tid => db.timetables.find? (fun t => t.id == tid)) with
  | some t =>
    match t.classId.bind (fun cid => db.classes.find? (fun c => c.id == cid)) with
    | some c => c.name
    | none => ""
  | none => ""

/-- Conflict entry pushed for a matching break time. -/
def mkBreakConflict (b : BreakTimeInput) : ScheduleConflict :=
  { type := .BREAK_TIME,
    details := { startTime := b.startTime, endTime := b.endTime,
                 dayOfWeek := b.dayOfWeek, entityId := "break",
                 additionalInfo := none } }

/-- Conflict entry pushed for a period found by the teacher query. -/
def mkTeacherConflict (db : DB) (q : Period) : ScheduleConflict :=
  { type := .TEACHER,
    details := { startTime := q.startTime, endTime := q.endTime,
                 dayOfWeek := q.dayOfWeek, entityId := q.teacherId,
                 additionalInfo := some ("Class: " ++ classNameOfPeriod db q) } }

/-- Conflict entry pushed for a period found by the classroom query. -/
def mkClassroomConflict (db : DB) (q : Period) : ScheduleConflict :=
  { type := .CLASSROOM,
    details := { startTime := q.startTime, endTime := q.endTime,
                 dayOfWeek := q.dayOfWeek, entityId := q.classroomId,
                 additionalInfo := some ("Class: " ++ classNameOfPeriod db q) } }

/-- Conflicts gathered by one iteration of the day loop of checkAvailability:
a break-time conflict through the exclusive isTimeOverlapping test, then a
teacher conflict and a classroom conflict through the inclusive queries. -/
def dayConflicts (db : DB) (pI : PeriodInput) (bts : List BreakTimeInput)
    (day : Nat) : List ScheduleConflict :=
  ((bts.find? (fun b => b.dayOfWeek == day &&
      isTimeOverlapping pI.startTime pI.endTime b.startTime b.endTime)).map
    mkBreakConflict).toList ++
  ((db.periods.find? (teacherWhere pI day)).map (mkTeacherConflict db)).toList ++
  ((db.periods.find? (classroomWhere pI day)).map (mkClassroomConflict db)).toList

/-- checkAvailability of the timetable router: runs the three conflict checks
for every selected day and reports availability exactly when the collected
conflict list is empty. -/
def checkAvailability (db : DB) (pI : PeriodInput) (bts : List BreakTimeInput) :
    AvailabilityCheck :=
  let conflicts := pI.daysOfWeek.flatMap (dayConflicts db pI bts)
  { isAvailable := conflicts.length == 0, conflicts := conflicts }

/-- TimetableService.createTimetable: creates the Timetable row connected to
term, class group and class, bulk-creates the period rows (each period time,
originally an "HH:mm" string, is stored as its 1970-01-01 anchored moment,
embedded here as the same minute count), and bulk-inserts the break-time rows
through the raw statement.  Returns the created timetable. -/
def createTimetable (db : DB) (input : TimetableInput) : DB × Timetable :=
  let t : Timetable := { id := freshId db.nextId, classId := some input.classId,
                         classGroupId := some input.classGroupId, termId := input.termId }
  let db1 : DB := { db with timetables := db.timetables ++ [t], nextId := db.nextId + 1 }
  let db2 : DB := input.periods.foldl (fun (d : DB) p =>
    { d with
      periods := d.periods ++ [{ id := freshId d.nextId, startTime := p.startTime,
                                 endTime := p.endTime, dayOfWeek := p.dayOfWeek,
                                 durationInMinutes := p.durationInMinutes,
                                 subjectId := p.subjectId, teacherId := p.teacherId,
                                 classroomId := p.classroomId, timetableId := some t.id }],
      nextId := d.nextId + 1 }) db1
  let db3 : DB := { db2 with
    breakTimes := db2.breakTimes ++ input.breakTimes.map (fun b =>
      { startTime := b.startTime, endTime := b.endTime, type := b.type,
        dayOfWeek := b.dayOfWeek, timetableId := t.id }) }
  (db3, t)

/-- Where-clause of the duplicate-timetable pre-check of the create
procedure: (classId = input.classId OR classGroupId = input.classGroupId)
AND termId = input.termId. -/
def duplicateWhere (input : TimetableInput) (t : Timetable) : Bool :=
  (t.classId == some input.classId || t.classGroupId == some input.classGroupId) &&
    t.termId == input.termId

/-- Message of the CONFLICT error raised when a timetable already exists. -/
def duplicateMsg : String := "A timetable already exists for this class in the selected term"

/-- Procedure create of the timetable router: raises CONFLICT when a
timetable for the class or class group already exists in the term, otherwise
delegates to TimetableService.createTimetable. -/
def create (db : DB) (input : TimetableInput) : DB × Except TrpcError Timetable :=
  match db.timetables.find? (duplicateWhere input) with
  | some _ => (db, .error { code := .CONFLICT, message := duplicateMsg })
  | none =>
    let (db1, t) := createTimetable db input
    (db1, .ok t)

/-- Entry of the periods array accepted by the timetable update procedure. -/
structure UpdatePeriodsItem where
  id : Option String
  startTime : Time
  endTime : Time
  durationInMinutes : Nat
  dayOfWeek : Nat
  subjectId : String
  classroomId : String
  teacherId : String
deriving DecidableEq

/-- Sequential rendering of the teacher-profile resolution performed for
every supplied period: the first period whose teacherId (a user id) has no
teacher profile aborts with NOT_FOUND. -/
def resolveTeachers (db : DB) : List UpdatePeriodsItem →
    Except TrpcError (List (UpdatePeriodsItem × String))
  | [] => .ok []
  | p :: rest =>
    match db.teacherProfiles.find? (fun tp => tp.userId == p.teacherId) with
    | none => .error { code := .NOT_FOUND,
                       message := "Teacher profile not found for teacher ID " ++ p.teacherId }
    | some tp => (resolveTeachers db rest).map (fun rs => (p, tp.id) :: rs)

/-- Procedure update of the timetable router (replace all periods): first
deletes every period of the timetable, then resolves each teacher profile
(raising NOT_FOUND on a missing one, with the deletion already applied), then
recreates the periods on the timetable.  A missing timetable row at the final
update step surfaces as an unclassified store error. -/
def timetableUpdate (db : DB) (id : String) (items : List UpdatePeriodsItem) :
    DB × Except TrpcError Timetable :=
  let db1 : DB := { db with periods := db.periods.filter (fun p => !(p.timetableId == some id)) }
  match resolveTeachers db1 items with
  | .error e => (db1, .error e)
  | .ok resolved =>
    match db1.timetables.find? (fun t => t.id == id) with
    | none => (db1, .error { code := .INTERNAL_SERVER_ERROR,
                             message := "Record to update not found" })
    | some t =>
      let db2 : DB := resolved.foldl (fun (d : DB) pr =>
        { d with
          periods := d.periods ++ [{ id := freshId d.nextId, startTime := pr.1.startTime,
                                     endTime := pr.1.endTime, dayOfWeek := pr.1.dayOfWeek,
                                     durationInMinutes := pr.1.durationInMinutes,
                                     subjectId := pr.1.subjectId, teacherId := pr.2,
                                     classroomId := pr.1.classroomId, timetableId := some id }],
          nextId := d.nextId + 1 }) db1
      (db2, .ok t)

/-- Input of the createPeriod procedure. -/
structure CreatePeriodInput where
  startTime : Time
  endTime : Time
  daysOfWeek : List Nat
  durationInMinutes : Nat
  subjectId : String
  classroomId : String
  teacherId : String
  timetableId : String
deriving DecidableEq

/-- Shared per-day period creation step of createPeriod and updatePeriod: one
row per selected day, carrying the resolved teacher profile id and the given
timetable connect value. -/
def recreateStep (startTime endTime : Time) (dur : Nat)
    (subjectId classroomId tpId : String) (tid : Option String)
    (acc : DB × List Period) (day : Nat) : DB × List Period :=
  let p : Period := { id := freshId acc.1.nextId, startTime := startTime,
                      endTime := endTime, dayOfWeek := day,
                      durationInMinutes := dur, subjectId := subjectId,
                      teacherId := tpId, classroomId := classroomId,
                      timetableId := tid }
  ({ acc.1 with periods := acc.1.periods ++ [p], nextId := acc.1.nextId + 1 },
   acc.2 ++ [p])

/-- Procedure createPeriod: resolves the teacher profile of the supplied user
id (NOT_FOUND when absent, before any write), then creates one period per
selected day connected to the given timetable and the resolved profile. -/
def createPeriod (db : DB) (input : CreatePeriodInput) :
    DB × Except TrpcError (List Period) :=
  match db.teacherProfiles.find? (fun tp => tp.userId == input.teacherId) with
  | none => (db, .error { code := .NOT_FOUND, message := "Teacher profile not found" })
  | some tp =>
    let (db1, created) := input.daysOfWeek.foldl
      (recreateStep input.startTime input.endTime input.durationInMinutes
        input.subjectId input.classroomId tp.id (some input.timetableId)) (db, [])
    (db1, .ok created)

/-- Input of the updatePeriod procedure. -/
structure UpdatePeriodInput where
  id : String
  startTime : Time
  endTime : Time
  daysOfWeek : List Nat
  durationInMinutes : Nat
  subjectId : String
  classroomId : String
  teacherId : String
deriving DecidableEq

/-- Procedure updatePeriod: resolves the teacher profile (NOT_FOUND when
absent, before any write), deletes the period with the input id (a missing
row surfaces as an unclassified store error), then recreates one period per
selected day; the timetable connect value comes from a findUnique on the
already-deleted id, hence it is always absent. -/
def updatePeriod (db : DB) (input : UpdatePeriodInput) :
    DB × Except TrpcError (List Period) :=
  match db.teacherProfiles.find? (fun tp => tp.userId == input.teacherId) with
  | none => (db, .error { code := .NOT_FOUND, message := "Teacher profile not found" })
  | some tp =>
    match db.periods.find? (fun p => p.id == input.id) with
    | none => (db, .error { code := .INTERNAL_SERVER_ERROR,
                            message := "Record to delete does not exist" })
    | some _ =>
      let db1 : DB := { db with periods := db.periods.filter (fun p => !(p.id == input.id)) }
      let connectTid : Option String :=
        (db1.periods.find? (fun p => p.id == input.id)).bind Period.timetableId
      let (db2, created) := input.daysOfWeek.foldl
        (recreateStep input.startTime input.endTime input.durationInMinutes
          input.subjectId input.classroomId tp.id connectTid) (db1, [])
      (db2, .ok created)

end TT

namespace CA

/-- Grading type enumeration. -/
inductive GradingType where
  | AUTOMATIC
  | MANUAL
deriving DecidableEq

/-- Submission status enumeration. -/
inductive SubmissionStatus where
  | PENDING
  | SUBMITTED
  | GRADED
  | LATE
  | MISSED
deriving DecidableEq

/-- Fields of the activity configuration relation read by submitActivity and
gradeSubmission (the remaining configuration columns are never consulted by
these two procedures and are omitted). -/
structure Configuration where
  totalMarks : Int
  passingMarks : Int
  gradingType : GradingType
deriving DecidableEq

/-- Persisted ClassActivity row as read by the submission procedures: its id
and its optional configuration relation. -/
structure Activity where
  id : String
  configuration : Option Configuration
deriving DecidableEq

/-- Persisted ActivitySubmission row. -/
structure Submission where
  id : String
  activityId : String
  studentId : String
  status : SubmissionStatus
  content : Json
  submittedAt : Nat
  totalMarks : Int
  obtainedMarks : Int
  isPassing : Bool
  gradingType : GradingType
  feedback : Option String
  gradedAt : Option Nat
  gradedBy : Option String

/-- State visible to the class-activity router submission procedures. -/
structure DB where
  activities : List Activity
  submissions : List Submission
  nextId : Nat

/-- Modelled from the spec: the database schema (not among the provided
sources) supplies column defaults for submission fields omitted from the
create payload of submitActivity; per the spec, obtainedMarks defaults
to 0. -/
def defaultObtainedMarks : Int := 0

/-- Modelled from the spec: the database schema (not among the provided
sources) defaults isPassing to false when omitted from the create payload. -/
def defaultIsPassing : Bool := false

/-- Input of submitActivity. -/
structure SubmitActivityInput where
  activityId : String
  studentId : String
  content : Json
  status : SubmissionStatus

/-- Procedure submitActivity: loads the activity with its configuration,
fails NOT_FOUND when the activity or its configuration is absent, otherwise
creates one submission copying totalMarks and gradingType from the
configuration, stamping submittedAt with the current time, and leaving
obtainedMarks and isPassing to their schema defaults. -/
def submitActivity (db : DB) (now : Nat) (input : SubmitActivityInput) :
    DB × Except TrpcError Submission :=
  match (db.activities.find? (fun a => a.id == input.activityId)).bind Activity.configuration with
  | none => (db, .error { code := .NOT_FOUND, message := "Activity or configuration not found" })
  | some config =>
    let s : Submission :=
      { id := freshId db.nextId, activityId := input.activityId,
        studentId := input.studentId, status := input.status,
        content := input.content, submittedAt := now,
        totalMarks := config.totalMarks, gradingType := config.gradingType,
        obtainedMarks := defaultObtainedMarks, isPassing := defaultIsPassing,
        feedback := none, gradedAt := none, gradedBy := none }
    ({ db with submissions := db.submissions ++ [s], nextId := db.nextId + 1 }, .ok s)

/-- Input of gradeSubmission. -/
structure GradeSubmissionInput where
  submissionId : String
  obtainedMarks : Int
  feedback : Option String

/-- Updated value of a graded submission: marks and passing flag set, the
feedback column written only when supplied (an absent optional input leaves
the stored column untouched), status GRADED, grading timestamp set to the
current time and grader set to the acting user. -/
def gradedValue (s : Submission) (input : GradeSubmissionInput)
    (config : Configuration) (now : Nat) (userId : String) : Submission :=
  { s with
    obtainedMarks := input.obtainedMarks,
    feedback := match input.feedback with
                | some f => some f
                | none => s.feedback,
    isPassing := decide (input.obtainedMarks ≥ config.passingMarks),
    status := .GRADED,
    gradedAt := some now,
    gradedBy := some userId }

/-- Procedure gradeSubmission: loads the submission with the configuration of
its activity, fails NOT_FOUND when either is absent, otherwise computes
isPassing with the inclusive comparison and updates the stored submission. -/
def gradeSubmission (db : DB) (now : Nat) (userId : String)
    (input : GradeSubmissionInput) : DB × Except TrpcError Submission :=
  match db.submissions.find? (fun s => s.id == input.submissionId) with
  | none => (db, .error { code := .NOT_FOUND,
                          message := "Submission or activity configuration not found" })
  | some s =>
    match (db.activities.find? (fun a => a.id == s.activityId)).bind Activity.configuration with
    | none => (db, .error { code := .NOT_FOUND,
                            message := "Submission or activity configuration not found" })
    | some config =>
      let s1 := gradedValue s input config now userId
      ({ db with submissions := db.submissions.map (fun t =>
           if t.id == input.submissionId then s1 else t) }, .ok s1)

end CA

namespace Seed

/-- Byte-wise prefix test mirroring String.startsWith of the source. -/
def startsWith (s p : String) : Bool := p.data.isPrefixOf s.data

/-- Persisted Class row read by the seed (name lookup plus the class group
link copied onto activities). -/
structure SClass where
  id : String
  name : String
  classGroupId : String
deriving DecidableEq

/-- Subject entry of the seed parameters (only its id is read). -/
structure SSubject where
  id : String
deriving DecidableEq

/-- StudentProfile row read by the seed (submissions are keyed on its
userId). -/
structure SStudent where
  userId : String
deriving DecidableEq

/-- Persisted ClassActivity row as written by the seed (configuration lives
in a schemaless column). -/
structure SActivity where
  id : String
  title : String
  description : Option String
  type : String
  status : String
  deadline : Option String
  classId : Option String
  classGroupId : Option String
  subjectId : String
  gradingCriteria : Option String
  configuration : Json

/-- Activity resource row created alongside a freshly created activity. -/
structure SResource where
  title : String
  type : String
  url : String
  activityId : String

/-- Persisted ActivitySubmission row as written by the seed. -/
structure SSubmission where
  id : String
  studentId : String
  activityId : String
  status : String
  content : Json
  totalMarks : Nat
  obtainedMarks : Nat
  isPassing : Bool
  gradedAt : Option Nat
  gradedBy : Option String
  gradingType : String

/-- State visible to the seed generator. -/
structure SeedDB where
  classes : List SClass
  classActivities : List SActivity
  resources : List SResource
  studentProfiles : List SStudent
  submissions : List SSubmission
  nextId : Nat

/-- Activity seed input shape (the ActivityInput interface of the seed). -/
structure ActivityInput where
  title : String
  description : Option String
  type : String
  status : String
  deadline : Option String
  classGroupId : Option String
  subjectId : String
  gradingCriteria : Option String
  configuration : Json

/-- Subject id at a position of the params subject list, with the empty
string fallback of the source. -/
def subjectIdAt (subjects : List SSubject) (i : Nat) : String :=
  ((subjects.get? i).map SSubject.id).getD ""

/-- Configuration payload of the seeded multiple-choice quiz. -/
def mathQuizConfig : Json :=
  .obj [("totalMarks", .num 20), ("passingMarks", .num 12),
        ("questions", .arr
          [.obj [("question", .str "What is 2 + 2?"),
                 ("options", .arr [.str "3", .str "4", .str "5", .str "6"]),
                 ("correctAnswer", .str "4"), ("marks", .num 10)],
           .obj [("question", .str "What is 5 x 5?"),
                 ("options", .arr [.str "15", .str "20", .str "25", .str "30"]),
                 ("correctAnswer", .str "25"), ("marks", .num 10)]]),
        ("timeLimit", .num 30), ("gradingType", .str "AUTOMATIC")]

/-- Configuration payload of the seeded word-search game. -/
def vocabularyGameConfig : Json :=
  .obj [("totalMarks", .num 10), ("passingMarks", .num 6),
        ("words", .arr [.str "LEARN", .str "STUDY", .str "READ", .str "WRITE"]),
        ("timeLimit", .num 15), ("gradingType", .str "AUTOMATIC")]

/-- Configuration payload of the seeded science project. -/
def scienceProjectConfig : Json :=
  .obj [("totalMarks", .num 100), ("passingMarks", .num 60),
        ("requirements", .arr
          [.str "Research paper (2000 words)", .str "Presentation slides",
           .str "Oral presentation (15 minutes)"]),
        ("rubric", .obj [("research", .num 40), ("presentation", .num 30),
                         ("delivery", .num 30)]),
        ("gradingType", .str "MANUAL")]

/-- Configuration payload of the seeded reading assignment. -/
def readingConfig : Json :=
  .obj [("chapter", .str "Chapter 3: The Solar System"), ("pages", .str "45-60"),
        ("gradingType", .str "NONE")]

/-- The four demo activities built for one class name. -/
def activityInputs (className : String) (classGroupId : String)
    (subjects : List SSubject) : List ActivityInput :=
  [{ title := "Math Quiz - " ++ className,
     description := some "Multiple choice math quiz",
     type := "QUIZ_MULTIPLE_CHOICE", deadline := some "2024-09-15",
     status := "PUBLISHED", classGroupId := some classGroupId,
     subjectId := subjectIdAt subjects 0,
     gradingCriteria := some "Automatic grading based on correct answers",
     configuration := mathQuizConfig },
   { title := "Vocabulary Game - " ++ className,
     description := some "Interactive word search game",
     type := "GAME_WORD_SEARCH", deadline := some "2024-09-20",
     status := "PUBLISHED", classGroupId := some classGroupId,
     subjectId := subjectIdAt subjects 1,
     gradingCriteria := none,
     configuration := vocabularyGameConfig },
   { title := "Science Project - " ++ className,
     description := some "Research and present a scientific topic",
     type := "CLASS_PROJECT", deadline := some "2024-10-30",
     status := "PUBLISHED", classGroupId := some classGroupId,
     subjectId := subjectIdAt subjects 2,
     gradingCriteria := some "Rubric based assessment of research quality and presentation",
     configuration := scienceProjectConfig },
   { title := "Reading Assignment - " ++ className,
     description := some "Read the assigned chapter and complete comprehension questions",
     type := "READING", deadline := some "2024-09-25",
     status := "PUBLISHED", classGroupId := some classGroupId,
     subjectId := subjectIdAt subjects 1,
     gradingCriteria := none,
     configuration := readingConfig }]

/-- The fixed class-name list of the seed. -/
def classNames : List String := ["Grade 1-A", "Grade 7-A", "Grade 10-A"]

/-- Key predicate of the title_classId upsert. -/
def keyMatch (title : String) (classId : String) (x : SActivity) : Bool :=
  x.title == title && x.classId == some classId

/-- Field assignment shared by the update and the create branch of the
upsert: every activity column except the id is written from the input. -/
def appliedFields (a : ActivityInput) (classId : String) (x : SActivity) : SActivity :=
  { x with title := a.title, description := a.description, type := a.type,
           status := a.status, deadline := a.deadline,
           classGroupId := a.classGroupId, subjectId := a.subjectId,
           gradingCriteria := a.gradingCriteria, configuration := a.configuration,
           classId := some classId }

/-- The two resource rows attached to a freshly created seed activity. -/
def seedResources (a : ActivityInput) (activityId : String) : List SResource :=
  [{ title := a.title ++ " Instructions", type := "DOCUMENT",
     url := "https://example.com/activities/" ++ a.title ++ "/instructions.pdf",
     activityId := activityId },
   { title := a.title ++ " Additional Resources", type := "LINK",
     url := "https://example.com/activities/" ++ a.title ++ "/resources",
     activityId := activityId }]

/-- Upsert of one seed activity keyed on (title, classId): an existing row is
rewritten from the input, otherwise a new row is created together with its
two resources.  Returns the upserted row. -/
def upsertActivity (db : SeedDB) (classId : String) (a : ActivityInput) :
    SeedDB × SActivity :=
  match db.classActivities.find? (keyMatch a.title classId) with
  | some x =>
    ({ db with classActivities := db.classActivities.map (fun y =>
         if keyMatch a.title classId y then appliedFields a classId y else y) },
     appliedFields a classId x)
  | none =>
    let aid := freshId db.nextId
    let base : SActivity :=
      { id := aid, title := a.title, description := a.description, type := a.type,
        status := a.status, deadline := a.deadline, classId := some classId,
        classGroupId := a.classGroupId, subjectId := a.subjectId,
        gradingCriteria := a.gradingCriteria, configuration := a.configuration }
    ({ db with classActivities := db.classActivities ++ [base],
               resources := db.resources ++ seedResources a aid,
               nextId := db.nextId + 1 }, base)

/-- One iteration of the activity loop: upsert the activity of the job (a
classId paired with an input) and push the upserted row. -/
def upStep (st : SeedDB × List SActivity) (j : String × ActivityInput) :
    SeedDB × List SActivity :=
  ((upsertActivity st.1 j.1 j.2).1, st.2 ++ [(upsertActivity st.1 j.1 j.2).2])

/-- Sequence of upserts for one class, threading the accumulator of created
activities. -/
def runUpserts (st : SeedDB × List SActivity) (classId : String)
    (inputs : List ActivityInput) : SeedDB × List SActivity :=
  inputs.foldl (fun (acc : SeedDB × List SActivity) a => upStep acc (classId, a)) st

/-- Activity phase of the seed: for each fixed class name, looks the class up
(skipping missing ones) and upserts its four demo activities. -/
def seedPhase1 (db : SeedDB) (subjects : List SSubject) : SeedDB × List SActivity :=
  classNames.foldl (fun (st : SeedDB × List SActivity) cname =>
    match st.1.classes.find? (fun c => c.name == cname) with
    | none => st
    | some cls => runUpserts st cls.id (activityInputs cname cls.classGroupId subjects))
    (db, [])

/-- Fixed answer payload stored on auto-graded seed submissions. -/
def autoGradedContent : Json :=
  .obj [("answers", .arr
    [.obj [("questionId", .num 1), ("answer", .str "4")],
     .obj [("questionId", .num 2), ("answer", .str "25")]])]

/-- Fixed free-text payload stored on manually graded seed submissions. -/
def manualContent : Json :=
  .obj [("submissionText", .str "Sample submission content"),
        ("attachments", .arr [.str "submission.pdf"])]

/-- One generated seed submission: marks drawn from the random sample, the
inclusive 60-mark passing rule, and the auto-graded split on the QUIZ_ and
GAME_ type prefixes. -/
def mkSeedSubmission (now : Nat) (marks : Nat) (a : SActivity)
    (studentUserId : String) (sid : String) : SSubmission :=
  let isAutoGraded := startsWith a.type "QUIZ_" || startsWith a.type "GAME_"
  { id := sid, studentId := studentUserId, activityId := a.id,
    status := if isAutoGraded then "GRADED" else "SUBMITTED",
    content := if isAutoGraded then autoGradedContent else manualContent,
    totalMarks := 100, obtainedMarks := marks,
    isPassing := decide (marks ≥ 60),
    gradedAt := if isAutoGraded then some now else none,
    gradedBy := if isAutoGraded then some "SYSTEM" else none,
    gradingType := if isAutoGraded then "AUTOMATIC" else "MANUAL" }

/-- Creation of one seed submission row, consuming one random sample. -/
def subStep (now : Nat) (rand : Nat → Nat) (a : SActivity)
    (acc : SeedDB × Nat) (s : SStudent) : SeedDB × Nat :=
  let sub := mkSeedSubmission now (rand acc.2) a s.userId (freshId acc.1.nextId)
  ({ acc.1 with submissions := acc.1.submissions ++ [sub], nextId := acc.1.nextId + 1 },
   acc.2 + 1)

/-- Submission pass for one activity: queries the students already holding a
submission for it, then creates one submission for each remaining student,
consuming one random sample per created row. -/
def seedSubsForActivity (now : Nat) (rand : Nat → Nat) (students : List SStudent)
    (st : SeedDB × Nat) (a : SActivity) : SeedDB × Nat :=
  let db := st.1
  let existing := db.submissions.filter (fun s =>
    s.activityId == a.id && students.any (fun u => u.userId == s.studentId))
  let existingStudentIds := existing.map SSubmission.studentId
  let studentsToProcess := students.filter (fun s => !(existingStudentIds.contains s.userId))
  studentsToProcess.foldl (subStep now rand a) (db, st.2)

/-- Jobs contributed by one fixed class name: nothing when the class is
absent, otherwise its four demo inputs paired with the class id. -/
def jobsOfClass (classes : List SClass) (subjects : List SSubject)
    (cname : String) : List (String × ActivityInput) :=
  match classes.find? (fun c => c.name == cname) with
  | none => []
  | some cls => (activityInputs cname cls.classGroupId subjects).map (fun a => (cls.id, a))

/-- The flattened upsert job list of the activity phase. -/
def jobsOf (classes : List SClass) (subjects : List SSubject) :
    List (String × ActivityInput) :=
  classNames.flatMap (jobsOfClass classes subjects)

/-- A submission row for the given activity id and student user id exists. -/
def hasSub (db : SeedDB) (aid uid : String) : Prop :=
  ∃ sub ∈ db.submissions, sub.activityId = aid ∧ sub.studentId = uid

/-- Every seed job key is present and its matching rows already carry exactly
the input field values (the state a completed seed run leaves behind). -/
def StableFor (subjects : List SSubject) (db : SeedDB) : Prop :=
  ∀ cname ∈ classNames, ∀ cls, db.classes.find? (fun c => c.name == cname) = some cls →
    ∀ a ∈ activityInputs cname cls.classGroupId subjects,
      (∃ x ∈ db.classActivities, keyMatch a.title cls.id x = true) ∧
      (∀ z ∈ db.classActivities, keyMatch a.title cls.id z = true →
        appliedFields a cls.id z = z)

/-- Every student holds a submission for the row found under each seed job
key (the coverage a completed seed run leaves behind). -/
def Covered (subjects : List SSubject) (db : SeedDB) : Prop :=
  ∀ cname ∈ classNames, ∀ cls, db.classes.find? (fun c => c.name == cname) = some cls →
    ∀ a ∈ activityInputs cname cls.classGroupId subjects,
      ∀ x, db.classActivities.find? (keyMatch a.title cls.id) = some x →
        ∀ s ∈ db.studentProfiles, hasSub db x.id s.userId

/-- The seed generator: upserts the demo activities, then (when students and
created activities exist) creates the missing submissions per activity.
Returns the final state and the list of upserted activities. -/
def seedActivities (db : SeedDB) (subjects : List SSubject) (rand : Nat → Nat)
    (now : Nat) : SeedDB × List SActivity :=
  let (db1, created) := seedPhase1 db subjects
  let students := db1.studentProfiles
  if students.length > 0 && created.length > 0 then
    ((created.foldl (seedSubsForActivity now rand students) (db1, 0)).1, created)
  else
    (db1, created)

end Seed

/-! Concrete fixtures used by witness theorems. -/

/-- Fixture period: Monday 10:00 to 11:00 for teacher t1 in room r1. -/
def c1q : TT.Period :=
  { id := "p1", startTime := 600, endTime := 660, dayOfWeek := 1,
    durationInMinutes := 60, subjectId := "s1", teacherId := "t1",
    classroomId := "r1", timetableId := some "tt1" }

/-- Fixture state holding only the fixture period. -/
def c1db : TT.DB :=
  { periods := [c1q], timetables := [], classes := [], teacherProfiles := [],
    breakTimes := [], nextId := 0 }

/-- Fixture candidate period ending exactly when the fixture period starts. -/
def c1p : TT.PeriodInput :=
  { startTime := 540, endTime := 600, daysOfWeek := [1], durationInMinutes := 60,
    subjectId := "s1", teacherId := "t1", classroomId := "r1" }

/-- Fixture break times starting exactly when the candidate ends. -/
def c1b : List TT.BreakTimeInput := [{ startTime := 600, endTime := 615, dayOfWeek := 1 }]

/-- Fixture period for the self-conflict claim. -/
def c10q : TT.Period :=
  { id := "p2", startTime := 480, endTime := 540, dayOfWeek := 2,
    durationInMinutes := 60, subjectId := "s2", teacherId := "t2",
    classroomId := "r2", timetableId := some "tt2" }

/-- Fixture state holding only the self-conflict fixture period. -/
def c10db : TT.DB :=
  { periods := [c10q], timetables := [], classes := [], teacherProfiles := [],
    breakTimes := [], nextId := 0 }

/-- Fixture candidate equal to the stored period, as sent when editing it in
place. -/
def c10p : TT.PeriodInput :=
  { startTime := 480, endTime := 540, daysOfWeek := [2], durationInMinutes := 60,
    subjectId := "s2", teacherId := "t2", classroomId := "r2" }

/-- Fixture timetable occupying class c1 in term term1. -/
def c2t : TT.Timetable :=
  { id := "tt3", classId := some "c1", classGroupId := some "g1", termId := "term1" }

/-- Fixture state holding the occupying timetable. -/
def c2db : TT.DB :=
  { periods := [], timetables := [c2t], classes := [], teacherProfiles := [],
    breakTimes := [], nextId := 0 }

/-- Fixture create input targeting the already covered class and term. -/
def c2i : TT.TimetableInput :=
  { termId := "term1", classGroupId := "g9", classId := "c1",
    academicCalendarId := "ac1", startTime := 480, endTime := 840,
    breakTimes := [], periods := [] }

/-- Fixture create input for a free class and term. -/
def c2i2 : TT.TimetableInput :=
  { termId := "term2", classGroupId := "g2", classId := "c2",
    academicCalendarId := "ac1", startTime := 480, endTime := 840,
    breakTimes := [], periods := [] }

/-- Fixture activity configuration with passing marks 50. -/
def c3config : CA.Configuration :=
  { totalMarks := 100, passingMarks := 50, gradingType := CA.GradingType.MANUAL }

/-- Fixture submission awaiting grading. -/
def c3sub : CA.Submission :=
  { id := "sub1", activityId := "a1", studentId := "st1",
    status := CA.SubmissionStatus.SUBMITTED, content := Json.str "essay",
    submittedAt := 5, totalMarks := 100, obtainedMarks := 0, isPassing := false,
    gradingType := CA.GradingType.MANUAL, feedback := none, gradedAt := none,
    gradedBy := none }

/-- Fixture class-activity state with one activity and one submission. -/
def c3db : CA.DB :=
  { activities := [{ id := "a1", configuration := some c3config }],
    submissions := [c3sub], nextId := 0 }

/-- Fixture grading input hitting the passing boundary exactly. -/
def c3i : CA.GradeSubmissionInput :=
  { submissionId := "sub1", obtainedMarks := 50, feedback := some "good" }

/-- Fixture submission input for the submitActivity witness. -/
def c4i : CA.SubmitActivityInput :=
  { activityId := "a1", studentId := "st1", content := Json.str "hello",
    status := CA.SubmissionStatus.SUBMITTED }

/-- Fixture class-activity state with one configured activity and no
submissions. -/
def c4db : CA.DB :=
  { activities := [{ id := "a1", configuration := some c3config }],
    submissions := [], nextId := 0 }

/-- Fixture state with no teacher profiles at all. -/
def c7db : TT.DB :=
  { periods := [], timetables := [], classes := [], teacherProfiles := [],
    breakTimes := [], nextId := 0 }

/-- Fixture createPeriod input naming an unknown teacher. -/
def c7ci : TT.CreatePeriodInput :=
  { startTime := 480, endTime := 540, daysOfWeek := [1], durationInMinutes := 60,
    subjectId := "s1", classroomId := "r1", teacherId := "ghost",
    timetableId := "tt1" }

/-- Fixture updatePeriod input naming an unknown teacher. -/
def c7ui : TT.UpdatePeriodInput :=
  { id := "p1", startTime := 480, endTime := 540, daysOfWeek := [1],
    durationInMinutes := 60, subjectId := "s1", classroomId := "r1",
    teacherId := "ghost" }

/-- Fixture period to be edited by the updatePeriod witness. -/
def c8q : TT.Period :=
  { id := "p8", startTime := 480, endTime := 540, dayOfWeek := 1,
    durationInMinutes := 60, subjectId := "s1", teacherId := "tp1",
    classroomId := "r1", timetableId := some "tt8" }

/-- Fixture state holding the edited period and a resolvable teacher. -/
def c8db : TT.DB :=
  { periods := [c8q], timetables := [], classes := [],
    teacherProfiles := [{ id := "tp1", userId := "u1" }], breakTimes := [],
    nextId := 0 }

/-- Fixture updatePeriod input editing the stored period across two days. -/
def c8i : TT.UpdatePeriodInput :=
  { id := "p8", startTime := 600, endTime := 660, daysOfWeek := [1, 2],
    durationInMinutes := 60, subjectId := "s1", classroomId := "r1",
    teacherId := "u1" }

/-- Fixture period belonging to the timetable updated by the C9 witness. -/
def c9q : TT.Period :=
  { id := "p9", startTime := 480, endTime := 540, dayOfWeek := 1,
    durationInMinutes := 60, subjectId := "s1", teacherId := "tp1",
    classroomId := "r1", timetableId := some "tt9" }

/-- Fixture timetable owning the C9 fixture period. -/
def c9t : TT.Timetable :=
  { id := "tt9", classId := some "c1", classGroupId := some "g1", termId := "term1" }

/-- Fixture state for the non-atomic timetable update: one stored period and
no teacher profiles. -/
def c9db : TT.DB :=
  { periods := [c9q], timetables := [c9t], classes := [],
    teacherProfiles := [], breakTimes := [], nextId := 0 }

/-- Fixture replacement period naming an unknown teacher. -/
def c9item : TT.UpdatePeriodsItem :=
  { id := none, startTime := 600, endTime := 660, durationInMinutes := 60,
    dayOfWeek := 2, subjectId := "s1", classroomId := "r1", teacherId := "ghost" }

/-- Fixture seed state: one class named Grade 1-A, one student, nothing else. -/
def c6db : Seed.SeedDB :=
  { classes := [{ id := "cls1", name := "Grade 1-A", classGroupId := "cg1" }],
    classActivities := [], resources := [], studentProfiles := [{ userId := "stu1" }],
    submissions := [], nextId := 0 }

/-- Fixture submission: the first row the seed creates on the fixture state
with a constant random sample of 42 and a clock value of 7. -/
def c6sub : Seed.SSubmission :=
  { id := "gen4", studentId := "stu1", activityId := "gen0", status := "GRADED",
    content := Seed.autoGradedContent, totalMarks := 100, obtainedMarks := 42,
    isPassing := false, gradedAt := some 7, gradedBy := some "SYSTEM",
    gradingType := "AUTOMATIC" }

/-! Helper lemmas. -/

theorem find?_some_of_mem {α : Type} {l : List α} {p : α → Bool} {a : α}
    (h : a ∈ l) (hp : p a = true) : ∃ b, l.find? p = some b ∧ p b = true := by
  have hs : (l.find? p).isSome := by
    rw [List.find?_isSome]
    exact ⟨a, h, hp⟩
  match hx : l.find? p with
  | some b => exact ⟨b, rfl, List.find?_some hx⟩
  | none => rw [hx] at hs; simp at hs

theorem map_id_of_mem {α : Type} {l : List α} {f : α → α}
    (h : ∀ x ∈ l, f x = x) : l.map f = l := by
  induction l with
  | nil => rfl
  | cons a t ih =>
    simp only [List.map_cons, h a (List.mem_cons_self a t)]
    rw [ih (fun x hx => h x (List.mem_cons_of_mem a hx))]

namespace TT

theorem conflicts_eq (db : DB) (pI : PeriodInput) (bts : List BreakTimeInput) :
    (checkAvailability db pI bts).conflicts = pI.daysOfWeek.flatMap (dayConflicts db pI bts) := rfl

theorem teacher_conflict_mem (db : DB) (pI : PeriodInput) (bts : List BreakTimeInput)
    (day : Nat) (hd : day ∈ pI.daysOfWeek)
    (h : ∃ q ∈ db.periods, teacherWhere pI day q = true) :
    ∃ c ∈ (checkAvailability db pI bts).conflicts, c.type = ConflictType.TEACHER := by
  obtain ⟨q, hq, hw⟩ := h
  obtain ⟨q1, hfind, _⟩ := find?_some_of_mem hq hw
  rw [conflicts_eq]
  refine ⟨mkTeacherConflict db q1, List.mem_flatMap.mpr ⟨day, hd, ?_⟩, rfl⟩
  unfold dayConflicts
  rw [hfind]
  exact List.mem_append_left _ (List.mem_append_right _ (by simp))

theorem classroom_conflict_mem (db : DB) (pI : PeriodInput) (bts : List BreakTimeInput)
    (day : Nat) (hd : day ∈ pI.daysOfWeek)
    (h : ∃ q ∈ db.periods, classroomWhere pI day q = true) :
    ∃ c ∈ (checkAvailability db pI bts).conflicts, c.type = ConflictType.CLASSROOM := by
  obtain ⟨q, hq, hw⟩ := h
  obtain ⟨q1, hfind, _⟩ := find?_some_of_mem hq hw
  rw [conflicts_eq]
  refine ⟨mkClassroomConflict db q1, List.mem_flatMap.mpr ⟨day, hd, ?_⟩, rfl⟩
  unfold dayConflicts
  rw [hfind]
  exact List.mem_append_right _ (by simp)

theorem day_conflict_types (db : DB) (pI : PeriodInput) (bts : List BreakTimeInput)
    (day : Nat) (hnb : bts.find? (fun b => b.dayOfWeek == day &&
      isTimeOverlapping pI.startTime pI.endTime b.startTime b.endTime) = none) :
    ∀ c ∈ dayConflicts db pI bts day, c.type ≠ ConflictType.BREAK_TIME := by
  intro c hc hbt
  unfold dayConflicts at hc
  rw [hnb] at hc
  cases hT : db.periods.find? (teacherWhere pI day) with
  | none =>
    cases hC : db.periods.find? (classroomWhere pI day) with
    | none => rw [hT, hC] at hc; simp at hc
    | some q =>
      rw [hT, hC] at hc; simp at hc; subst hc
      simp [mkClassroomConflict] at hbt
  | some q =>
    cases hC : db.periods.find? (classroomWhere pI day) with
    | none =>
      rw [hT, hC] at hc; simp at hc; subst hc
      simp [mkTeacherConflict] at hbt
    | some q2 =>
      rw [hT, hC] at hc; simp at hc
      rcases hc with rfl | rfl
      · simp [mkTeacherConflict] at hbt
      · simp [mkClassroomConflict] at hbt

theorem no_break_conflicts (db : DB) (pI : PeriodInput) (bts : List BreakTimeInput)
    (h : ∀ b ∈ bts, pI.endTime ≤ b.startTime) :
    ∀ c ∈ (checkAvailability db pI bts).conflicts, c.type ≠ ConflictType.BREAK_TIME := by
  intro c hc
  rw [conflicts_eq] at hc
  obtain ⟨day, _, hcd⟩ := List.mem_flatMap.mp hc
  refine day_conflict_types db pI bts day ?_ c hcd
  rw [List.find?_eq_none]
  intro b hb
  have hle := h b hb
  intro hcontra
  simp only [isTimeOverlapping, Bool.and_eq_true, decide_eq_true_eq] at hcontra
  exact Nat.lt_irrefl _ (Nat.lt_of_lt_of_le hcontra.2.2 hle)

theorem isAvailable_iff_no_conflicts (db : DB) (pI : PeriodInput)
    (bts : List BreakTimeInput) :
    (checkAvailability db pI bts).isAvailable = true ↔
      (checkAvailability db pI bts).conflicts = [] := by
  have h : (checkAvailability db pI bts).isAvailable =
      ((checkAvailability db pI bts).conflicts.length == 0) := rfl
  rw [h, beq_iff_eq, List.length_eq_zero]

end TT

/-! Claim theorems. -/

/-- C1: in checkAvailability of the timetable router, existing teacher and
classroom periods on a selected day are matched with the inclusive boundary
comparison, so a candidate ending exactly when an existing period starts is
reported as a TEACHER conflict, while break times are matched with the
exclusive isTimeOverlapping test, so break times meeting the candidate only
at that boundary produce no BREAK_TIME conflict; and isAvailable holds
exactly when the conflict list is empty. -/
theorem checkAvailability_boundary_asymmetry
    (db : TT.DB) (pI : TT.PeriodInput) (bts : List TT.BreakTimeInput)
    (day : Nat) (q : TT.Period)
    (hday : day ∈ pI.daysOfWeek) (hq : q ∈ db.periods)
    (hteacher : q.teacherId = pI.teacherId) (hqday : q.dayOfWeek = day)
    (hboundary : q.startTime = pI.endTime)
    (hwfq : q.startTime ≤ q.endTime) (hwfp : pI.startTime ≤ pI.endTime) :
    (∃ c ∈ (TT.checkAvailability db pI bts).conflicts,
        c.type = TT.ConflictType.TEACHER) ∧
    ((∀ b ∈ bts, pI.endTime ≤ b.startTime) →
      ∀ c ∈ (TT.checkAvailability db pI bts).conflicts,
        c.type ≠ TT.ConflictType.BREAK_TIME) ∧
    ((TT.checkAvailability db pI bts).isAvailable = true ↔
      (TT.checkAvailability db pI bts).conflicts = []) := by
  refine ⟨?_, fun hb => TT.no_break_conflicts db pI bts hb,
    TT.isAvailable_iff_no_conflicts db pI bts⟩
  apply TT.teacher_conflict_mem db pI bts day hday
  refine ⟨q, hq, ?_⟩
  have h1 : q.startTime ≤ pI.endTime := le_of_eq hboundary
  have h2 : pI.startTime ≤ q.endTime := le_trans hwfp (hboundary ▸ hwfq)
  simp [TT.teacherWhere, hteacher, hqday, h1, h2]

/-- Witness for C1 at the concrete fixture: the candidate 09:00-10:00 meets
the stored 10:00-11:00 period of the same teacher and a 10:00-10:15 break. -/
theorem checkAvailability_boundary_asymmetry_witness :
    (∃ c ∈ (TT.checkAvailability c1db c1p c1b).conflicts,
        c.type = TT.ConflictType.TEACHER) ∧
    ((∀ b ∈ c1b, c1p.endTime ≤ b.startTime) →
      ∀ c ∈ (TT.checkAvailability c1db c1p c1b).conflicts,
        c.type ≠ TT.ConflictType.BREAK_TIME) ∧
    ((TT.checkAvailability c1db c1p c1b).isAvailable = true ↔
      (TT.checkAvailability c1db c1p c1b).conflicts = []) :=
  checkAvailability_boundary_asymmetry c1db c1p c1b 1 c1q (by decide)
    (by simp [c1db]) (by decide) (by decide) (by decide) (by decide) (by decide)

/-- C10: the conflict queries of checkAvailability restrict only on teacher
(or classroom), day of week and inclusive time overlap, so a candidate that
coincides with a persisted period (same teacher, classroom, day and time
range, as sent when editing that period in place) is reported against itself
with a TEACHER and a CLASSROOM conflict, and isAvailable is false. -/
theorem checkAvailability_reports_self
    (db : TT.DB) (q : TT.Period) (bts : List TT.BreakTimeInput)
    (pI : TT.PeriodInput) (hq : q ∈ db.periods)
    (hteacher : pI.teacherId = q.teacherId) (hroom : pI.classroomId = q.classroomId)
    (hday : q.dayOfWeek ∈ pI.daysOfWeek)
    (hstart : pI.startTime = q.startTime) (hend : pI.endTime = q.endTime)
    (hwf : q.startTime ≤ q.endTime) :
    (∃ c ∈ (TT.checkAvailability db pI bts).conflicts,
        c.type = TT.ConflictType.TEACHER) ∧
    (∃ c ∈ (TT.checkAvailability db pI bts).conflicts,
        c.type = TT.ConflictType.CLASSROOM) ∧
    (TT.checkAvailability db pI bts).isAvailable = false := by
  have h1 : q.startTime ≤ pI.endTime := hend ▸ hwf
  have h2 : pI.startTime ≤ q.endTime := hstart ▸ hwf
  have ht : ∃ c ∈ (TT.checkAvailability db pI bts).conflicts,
      c.type = TT.ConflictType.TEACHER := by
    apply TT.teacher_conflict_mem db pI bts q.dayOfWeek hday
    refine ⟨q, hq, ?_⟩
    simp [TT.teacherWhere, hteacher.symm, h1, h2]
  have hc : ∃ c ∈ (TT.checkAvailability db pI bts).conflicts,
      c.type = TT.ConflictType.CLASSROOM := by
    apply TT.classroom_conflict_mem db pI bts q.dayOfWeek hday
    refine ⟨q, hq, ?_⟩
    simp [TT.classroomWhere, hroom.symm, h1, h2]
  refine ⟨ht, hc, ?_⟩
  obtain ⟨c, hcmem, _⟩ := ht
  have hne : (TT.checkAvailability db pI bts).conflicts ≠ [] := by
    intro hnil
    rw [hnil] at hcmem
    exact List.not_mem_nil c hcmem
  cases hava : (TT.checkAvailability db pI bts).isAvailable with
  | false => rfl
  | true => exact absurd ((TT.isAvailable_iff_no_conflicts db pI bts).mp hava) hne

/-- Witness for C10 at the concrete fixture: editing the stored Tuesday
08:00-09:00 period in place reports that period against itself. -/
theorem checkAvailability_reports_self_witness :
    (∃ c ∈ (TT.checkAvailability c10db c10p []).conflicts,
        c.type = TT.ConflictType.TEACHER) ∧
    (∃ c ∈ (TT.checkAvailability c10db c10p []).conflicts,
        c.type = TT.ConflictType.CLASSROOM) ∧
    (TT.checkAvailability c10db c10p []).isAvailable = false :=
  checkAvailability_reports_self c10db c10q [] c10p (by simp [c10db])
    (by decide) (by decide) (by decide) (by decide) (by decide) (by decide)

theorem recreate_foldl_spec (st en : Time) (du : Nat) (sId rId tpId : String)
    (tid : Option String) (days : List Nat) :
    ∀ acc : TT.DB × List TT.Period,
      ∃ news : List TT.Period,
        (days.foldl (TT.recreateStep st en du sId rId tpId tid) acc).1.periods =
          acc.1.periods ++ news ∧
        ∀ p ∈ news, p.timetableId = tid := by
  induction days with
  | nil => intro acc; exact ⟨[], by simp, by simp⟩
  | cons d rest ih =>
    intro acc
    obtain ⟨news, h1, h2⟩ := ih (TT.recreateStep st en du sId rId tpId tid acc d)
    refine ⟨{ id := freshId acc.1.nextId, startTime := st, endTime := en,
              dayOfWeek := d, durationInMinutes := du, subjectId := sId,
              teacherId := tpId, classroomId := rId, timetableId := tid } :: news,
            ?_, ?_⟩
    · rw [List.foldl_cons, h1]
      simp [TT.recreateStep]
    · intro p hp
      rcases List.mem_cons.mp hp with rfl | hp2
      · rfl
      · exact h2 p hp2

theorem resolveTeachers_missing (db : TT.DB) (items : List TT.UpdatePeriodsItem)
    (h : ∃ it ∈ items, ∀ tp ∈ db.teacherProfiles, tp.userId ≠ it.teacherId) :
    ∃ e, TT.resolveTeachers db items = .error e ∧ e.code = TrpcCode.NOT_FOUND := by
  induction items with
  | nil =>
    obtain ⟨it, hmem, _⟩ := h
    exact absurd hmem (List.not_mem_nil it)
  | cons p rest ih =>
    obtain ⟨it, hmem, hno⟩ := h
    cases hf : db.teacherProfiles.find? (fun tp => tp.userId == p.teacherId) with
    | none =>
      refine ⟨{ code := TrpcCode.NOT_FOUND,
                message := "Teacher profile not found for teacher ID " ++ p.teacherId },
              ?_, rfl⟩
      unfold TT.resolveTeachers
      rw [hf]
    | some tp =>
      have hit : it ∈ rest := by
        rcases List.mem_cons.mp hmem with rfl | h2
        · exfalso
          have hbeq := List.find?_some hf
          have hmemtp : tp ∈ db.teacherProfiles := List.mem_of_find?_eq_some hf
          exact hno tp hmemtp (by simpa using hbeq)
        · exact h2
      obtain ⟨e, he, hc⟩ := ih ⟨it, hit, hno⟩
      refine ⟨e, ?_, hc⟩
      unfold TT.resolveTeachers
      rw [hf, he]
      rfl

theorem filter_id_find_none (l : List TT.Period) (x : String) :
    (l.filter (fun p => !(p.id == x))).find? (fun p => p.id == x) = none := by
  rw [List.find?_eq_none]
  intro p hp
  have h2 := (List.mem_filter.mp hp).2
  simp at h2
  simp [h2]

/-- C2: timetable creation raises CONFLICT with the documented message and
leaves the state untouched whenever a timetable for the target class or
class group already exists in the term, and otherwise delegates to
TimetableService.createTimetable. -/
theorem timetable_create_unique_per_term (db : TT.DB) (input : TT.TimetableInput) :
    ((∃ t ∈ db.timetables,
        (t.classId = some input.classId ∨ t.classGroupId = some input.classGroupId) ∧
        t.termId = input.termId) →
      TT.create db input =
        (db, Except.error { code := TrpcCode.CONFLICT, message := TT.duplicateMsg })) ∧
    ((∀ t ∈ db.timetables,
        ¬ ((t.classId = some input.classId ∨ t.classGroupId = some input.classGroupId) ∧
           t.termId = input.termId)) →
      TT.create db input =
        ((TT.createTimetable db input).1, Except.ok (TT.createTimetable db input).2)) := by
  constructor
  · rintro ⟨t, ht, hcond, hterm⟩
    have hw : TT.duplicateWhere input t = true := by
      unfold TT.duplicateWhere
      rcases hcond with hcl | hcg
      · simp [hcl, hterm]
      · simp [hcg, hterm]
    obtain ⟨t1, hfind, _⟩ := find?_some_of_mem ht hw
    simp [TT.create, hfind]
  · intro h
    have hnone : db.timetables.find? (TT.duplicateWhere input) = none := by
      rw [List.find?_eq_none]
      intro t ht hw
      apply h t ht
      unfold TT.duplicateWhere at hw
      simp only [Bool.and_eq_true, Bool.or_eq_true, beq_iff_eq] at hw
      exact ⟨hw.1, hw.2⟩
    simp [TT.create, hnone]

/-- Witness for C2: creating over the occupied (class c1, term term1) pair
fails with the CONFLICT message and changes nothing, while a free pair
delegates to the service. -/
theorem timetable_create_unique_per_term_witness :
    TT.create c2db c2i =
      (c2db, Except.error { code := TrpcCode.CONFLICT, message := TT.duplicateMsg }) ∧
    TT.create c2db c2i2 =
      ((TT.createTimetable c2db c2i2).1, Except.ok (TT.createTimetable c2db c2i2).2) :=
  ⟨(timetable_create_unique_per_term c2db c2i).1
      ⟨c2t, by simp [c2db], Or.inl rfl, rfl⟩,
   (timetable_create_unique_per_term c2db c2i2).2
      (by intro t ht; simp [c2db] at ht; subst ht; simp [c2t, c2i2])⟩

/-- C3: gradeSubmission fails NOT_FOUND with the state untouched when the
submission or the configuration of its activity is absent; otherwise it
replaces the stored submission with the graded value, whose passing flag is
the inclusive comparison of the obtained marks against the passing marks (so
hitting the boundary exactly passes), whose status is GRADED, whose grading
timestamp is the current time and whose grader is the acting user, writing
the supplied feedback. -/
theorem gradeSubmission_spec (db : CA.DB) (now : Nat) (userId : String)
    (input : CA.GradeSubmissionInput) :
    ((db.submissions.find? (fun s => s.id == input.submissionId) = none ∨
      (∃ s, db.submissions.find? (fun s1 => s1.id == input.submissionId) = some s ∧
        (db.activities.find? (fun a => a.id == s.activityId)).bind
          CA.Activity.configuration = none)) →
      CA.gradeSubmission db now userId input =
        (db, Except.error { code := TrpcCode.NOT_FOUND,
                            message := "Submission or activity configuration not found" })) ∧
    (∀ s config,
      db.submissions.find? (fun s1 => s1.id == input.submissionId) = some s →
      (db.activities.find? (fun a => a.id == s.activityId)).bind
        CA.Activity.configuration = some config →
      (CA.gradeSubmission db now userId input =
        ({ db with submissions := db.submissions.map (fun t =>
             if t.id == input.submissionId
             then CA.gradedValue s input config now userId else t) },
         Except.ok (CA.gradedValue s input config now userId)) ∧
       (CA.gradedValue s input config now userId).obtainedMarks = input.obtainedMarks ∧
       ((CA.gradedValue s input config now userId).isPassing = true ↔
         config.passingMarks ≤ input.obtainedMarks) ∧
       (input.obtainedMarks = config.passingMarks →
         (CA.gradedValue s input config now userId).isPassing = true) ∧
       (CA.gradedValue s input config now userId).status = CA.SubmissionStatus.GRADED ∧
       (CA.gradedValue s input config now userId).gradedAt = some now ∧
       (CA.gradedValue s input config now userId).gradedBy = some userId ∧
       (∀ f, input.feedback = some f →
         (CA.gradedValue s input config now userId).feedback = some f))) := by
  constructor
  · intro h
    rcases h with hnone | ⟨s, hs, hcfg⟩
    · simp [CA.gradeSubmission, hnone]
    · simp [CA.gradeSubmission, hs, hcfg]
  · intro s config hs hcfg
    refine ⟨?_, rfl, ?_, ?_, rfl, rfl, rfl, ?_⟩
    · simp [CA.gradeSubmission, hs, hcfg]
    · simp [CA.gradedValue]
    · intro hEq
      simp [CA.gradedValue, hEq]
    · intro f hf
      simp [CA.gradedValue, hf]

/-- Witness for C3: grading the fixture submission with marks equal to the
passing threshold updates it in place and marks it passing. -/
theorem gradeSubmission_spec_witness :
    CA.gradeSubmission c3db 77 "grader1" c3i =
      ({ c3db with submissions := c3db.submissions.map (fun t =>
           if t.id == c3i.submissionId
           then CA.gradedValue c3sub c3i c3config 77 "grader1" else t) },
       Except.ok (CA.gradedValue c3sub c3i c3config 77 "grader1")) ∧
    (CA.gradedValue c3sub c3i c3config 77 "grader1").isPassing = true := by
  have h := (gradeSubmission_spec c3db 77 "grader1" c3i).2 c3sub c3config rfl rfl
  exact ⟨h.1, h.2.2.2.1 (by decide)⟩

/-- C4: submitActivity fails NOT_FOUND with the state untouched when the
activity or its configuration is absent; otherwise it appends exactly one
submission whose obtained marks default to 0, whose passing flag defaults to
false, whose total marks and grading type are copied from the configuration
and whose submission timestamp is the current time. -/
theorem submitActivity_spec (db : CA.DB) (now : Nat) (input : CA.SubmitActivityInput) :
    (((db.activities.find? (fun a => a.id == input.activityId)).bind
        CA.Activity.configuration = none) →
      CA.submitActivity db now input =
        (db, Except.error { code := TrpcCode.NOT_FOUND,
                            message := "Activity or configuration not found" })) ∧
    (∀ config,
      (db.activities.find? (fun a => a.id == input.activityId)).bind
        CA.Activity.configuration = some config →
      ∃ s, CA.submitActivity db now input =
          ({ db with submissions := db.submissions ++ [s], nextId := db.nextId + 1 },
           Except.ok s) ∧
        s.obtainedMarks = 0 ∧ s.isPassing = false ∧
        s.totalMarks = config.totalMarks ∧ s.gradingType = config.gradingType ∧
        s.submittedAt = now ∧ s.activityId = input.activityId ∧
        s.studentId = input.studentId ∧ s.status = input.status ∧
        s.content = input.content) := by
  constructor
  · intro h
    simp [CA.submitActivity, h]
  · intro config hc
    refine ⟨{ id := freshId db.nextId, activityId := input.activityId,
              studentId := input.studentId, status := input.status,
              content := input.content, submittedAt := now,
              totalMarks := config.totalMarks, gradingType := config.gradingType,
              obtainedMarks := CA.defaultObtainedMarks,
              isPassing := CA.defaultIsPassing, feedback := none,
              gradedAt := none, gradedBy := none },
            ?_, rfl, rfl, rfl, rfl, rfl, rfl, rfl, rfl, rfl⟩
    simp [CA.submitActivity, hc]

/-- Witness for C4: submitting against the configured fixture activity
appends one defaulted submission. -/
theorem submitActivity_spec_witness :
    ∃ s, CA.submitActivity c4db 9 c4i =
        ({ c4db with submissions := c4db.submissions ++ [s], nextId := c4db.nextId + 1 },
         Except.ok s) ∧
      s.obtainedMarks = 0 ∧ s.isPassing = false ∧
      s.totalMarks = c3config.totalMarks ∧ s.gradingType = c3config.gradingType ∧
      s.submittedAt = 9 ∧ s.activityId = c4i.activityId ∧
      s.studentId = c4i.studentId ∧ s.status = c4i.status ∧
      s.content = c4i.content :=
  (submitActivity_spec c4db 9 c4i).2 c3config rfl

/-- C7: createPeriod and updatePeriod fail NOT_FOUND and perform no write at
all when the supplied teacher user id has no teacher profile; in particular
updatePeriod does not delete the existing period. -/
theorem period_writes_require_teacher_profile (db : TT.DB)
    (ci : TT.CreatePeriodInput) (ui : TT.UpdatePeriodInput)
    (hc : ∀ tp ∈ db.teacherProfiles, tp.userId ≠ ci.teacherId)
    (hu : ∀ tp ∈ db.teacherProfiles, tp.userId ≠ ui.teacherId) :
    TT.createPeriod db ci =
      (db, Except.error { code := TrpcCode.NOT_FOUND,
                          message := "Teacher profile not found" }) ∧
    TT.updatePeriod db ui =
      (db, Except.error { code := TrpcCode.NOT_FOUND,
                          message := "Teacher profile not found" }) := by
  have h1 : db.teacherProfiles.find? (fun tp => tp.userId == ci.teacherId) = none := by
    rw [List.find?_eq_none]
    intro tp htp
    simpa using hc tp htp
  have h2 : db.teacherProfiles.find? (fun tp => tp.userId == ui.teacherId) = none := by
    rw [List.find?_eq_none]
    intro tp htp
    simpa using hu tp htp
  exact ⟨by simp [TT.createPeriod, h1], by simp [TT.updatePeriod, h2]⟩

/-- Witness for C7 on a state with no teacher profiles at all. -/
theorem period_writes_require_teacher_profile_witness :
    TT.createPeriod c7db c7ci =
      (c7db, Except.error { code := TrpcCode.NOT_FOUND,
                            message := "Teacher profile not found" }) ∧
    TT.updatePeriod c7db c7ui =
      (c7db, Except.error { code := TrpcCode.NOT_FOUND,
                            message := "Teacher profile not found" }) :=
  period_writes_require_teacher_profile c7db c7ci c7ui
    (by intro tp htp; simp [c7db] at htp) (by intro tp htp; simp [c7db] at htp)

/-- C8: updatePeriod deletes the period first and only then looks the same id
up to obtain the timetable to connect, so the lookup always yields nothing:
the original period is gone from the final state, every recreated period
carries the absent timetable link, and in particular none of them is linked
to the timetable of the original period. -/
theorem updatePeriod_loses_timetable_link (db : TT.DB) (input : TT.UpdatePeriodInput)
    (tp : TT.TeacherProfile) (q : TT.Period) (tid : String)
    (hf : db.teacherProfiles.find? (fun t => t.userId == input.teacherId) = some tp)
    (hq : q ∈ db.periods) (hqid : q.id = input.id)
    (hqtid : q.timetableId = some tid) :
    (((db.periods.filter (fun p => !(p.id == input.id))).find?
        (fun p => p.id == input.id)).bind TT.Period.timetableId = none) ∧
    q ∉ (TT.updatePeriod db input).1.periods ∧
    (∀ p ∈ (TT.updatePeriod db input).1.periods,
      p ∉ db.periods → p.timetableId = none) := by
  have hlook : ((db.periods.filter (fun p => !(p.id == input.id))).find?
      (fun p => p.id == input.id)).bind TT.Period.timetableId = none := by
    rw [filter_id_find_none]
    rfl
  have hqfind : ∃ q1, db.periods.find? (fun p => p.id == input.id) = some q1 ∧
      (fun p => p.id == input.id) q1 = true :=
    find?_some_of_mem hq (by simp [hqid])
  obtain ⟨q1, hq1, _⟩ := hqfind
  have hrun : (TT.updatePeriod db input).1 =
      (input.daysOfWeek.foldl
        (TT.recreateStep input.startTime input.endTime input.durationInMinutes
          input.subjectId input.classroomId tp.id
          (((db.periods.filter (fun p => !(p.id == input.id))).find?
              (fun p => p.id == input.id)).bind TT.Period.timetableId))
        ({ db with periods := db.periods.filter (fun p => !(p.id == input.id)) },
         [])).1 := by
    unfold TT.updatePeriod
    rw [hf, hq1]
  obtain ⟨news, hnews, htids⟩ := recreate_foldl_spec input.startTime input.endTime
    input.durationInMinutes input.subjectId input.classroomId tp.id
    (((db.periods.filter (fun p => !(p.id == input.id))).find?
        (fun p => p.id == input.id)).bind TT.Period.timetableId)
    input.daysOfWeek
    ({ db with periods := db.periods.filter (fun p => !(p.id == input.id)) }, [])
  rw [hlook] at htids
  refine ⟨hlook, ?_, ?_⟩
  · rw [hrun, hnews]
    intro hmem
    rcases List.mem_append.mp hmem with hmf | hmn
    · have := (List.mem_filter.mp hmf).2
      simp [hqid] at this
    · rw [htids q hmn] at hqtid
      exact Option.noConfusion hqtid
  · intro p hp hpnot
    rw [hrun, hnews] at hp
    rcases List.mem_append.mp hp with hmf | hmn
    · exact absurd (List.mem_of_mem_filter hmf) hpnot
    · exact htids p hmn

/-- Witness for C8 on the fixture state: editing period p8 deletes it and the
two recreated rows carry no timetable link. -/
theorem updatePeriod_loses_timetable_link_witness :
    (((c8db.periods.filter (fun p => !(p.id == c8i.id))).find?
        (fun p => p.id == c8i.id)).bind TT.Period.timetableId = none) ∧
    c8q ∉ (TT.updatePeriod c8db c8i).1.periods ∧
    (∀ p ∈ (TT.updatePeriod c8db c8i).1.periods,
      p ∉ c8db.periods → p.timetableId = none) :=
  updatePeriod_loses_timetable_link c8db c8i { id := "tp1", userId := "u1" } c8q
    "tt8" rfl (by simp [c8db]) rfl rfl

/-- C9: the timetable update operation deletes every period of the timetable
before resolving the teacher profiles, so when any supplied teacher id lacks
a profile the call fails NOT_FOUND with the deletion already applied: the
final state is the original one stripped of all periods of that timetable. -/
theorem timetableUpdate_nonatomic (db : TT.DB) (id : String)
    (items : List TT.UpdatePeriodsItem)
    (h : ∃ it ∈ items, ∀ tp ∈ db.teacherProfiles, tp.userId ≠ it.teacherId) :
    ∃ e, TT.timetableUpdate db id items =
        ({ db with periods := db.periods.filter (fun p => !(p.timetableId == some id)) },
         Except.error e) ∧
      e.code = TrpcCode.NOT_FOUND ∧
      ∀ p ∈ (TT.timetableUpdate db id items).1.periods, p.timetableId ≠ some id := by
  have hdb1 : ({ db with periods :=
                   db.periods.filter (fun p => !(p.timetableId == some id)) } :
      TT.DB).teacherProfiles = db.teacherProfiles := rfl
  obtain ⟨e, he, hcode⟩ := resolveTeachers_missing
    { db with periods := db.periods.filter (fun p => !(p.timetableId == some id)) }
    items (by rw [hdb1]; exact h)
  have hrun : TT.timetableUpdate db id items =
      ({ db with periods := db.periods.filter (fun p => !(p.timetableId == some id)) },
       Except.error e) := by
    simp only [TT.timetableUpdate, he]
  refine ⟨e, hrun, hcode, ?_⟩
  intro p hp
  rw [hrun] at hp
  have := (List.mem_filter.mp hp).2
  simpa using this

/-- Witness for C9 on the fixture state: the failing update leaves timetable
tt9 with zero periods although it had one. -/
theorem timetableUpdate_nonatomic_witness :
    ∃ e, TT.timetableUpdate c9db "tt9" [c9item] =
        ({ c9db with periods :=
                       c9db.periods.filter (fun p => !(p.timetableId == some "tt9")) },
         Except.error e) ∧
      e.code = TrpcCode.NOT_FOUND ∧
      ∀ p ∈ (TT.timetableUpdate c9db "tt9" [c9item]).1.periods,
        p.timetableId ≠ some "tt9" :=
  timetableUpdate_nonatomic c9db "tt9" [c9item]
    ⟨c9item, by simp, by intro tp htp; simp [c9db] at htp⟩

theorem find?_append_eq {α : Type} {l1 l2 : List α} {p : α → Bool}
    (h : l1.find? p = none) : (l1 ++ l2).find? p = l2.find? p := by
  induction l1 with
  | nil => rfl
  | cons z t ih =>
    cases hz : p z with
    | true => rw [List.find?_cons_of_pos _ hz] at h; exact Option.noConfusion h
    | false =>
      rw [List.find?_cons_of_neg _ (by simp [hz])] at h
      rw [List.cons_append, List.find?_cons_of_neg _ (by simp [hz])]
      exact ih h

theorem find?_append_single_neg {α : Type} (l : List α) (b : α) (p : α → Bool)
    (hb : p b = false) : (l ++ [b]).find? p = l.find? p := by
  induction l with
  | nil => simp [List.find?, hb]
  | cons z t ih =>
    cases hz : p z with
    | true => rw [List.cons_append, List.find?_cons_of_pos _ hz, List.find?_cons_of_pos _ hz]
    | false =>
      rw [List.cons_append, List.find?_cons_of_neg _ (by simp [hz]),
        List.find?_cons_of_neg _ (by simp [hz])]
      exact ih

theorem find?_map_invariant {α : Type} {l : List α} {f : α → α} {p : α → Bool}
    (h1 : ∀ x ∈ l, p (f x) = p x) (h2 : ∀ x ∈ l, p x = true → f x = x) :
    (l.map f).find? p = l.find? p := by
  induction l with
  | nil => rfl
  | cons z t ih =>
    rw [List.map_cons]
    cases hz : p z with
    | true =>
      rw [List.find?_cons_of_pos _ (by rw [h1 z (by simp), hz]),
        List.find?_cons_of_pos _ hz, h2 z (by simp) hz]
    | false =>
      rw [List.find?_cons_of_neg _ (by simp [h1 z (by simp), hz]),
        List.find?_cons_of_neg _ (by simp [hz])]
      exact ih (fun x hx => h1 x (by simp [hx])) (fun x hx => h2 x (by simp [hx]))

namespace Seed

theorem keyMatch_applied (a : ActivityInput) (cid : String) (x : SActivity) :
    keyMatch a.title cid (appliedFields a cid x) = true := by
  simp [keyMatch, appliedFields]

theorem appliedFields_idem (a : ActivityInput) (cid : String) (x : SActivity) :
    appliedFields a cid (appliedFields a cid x) = appliedFields a cid x := rfl

theorem keyMatch_title {t cid : String} {x : SActivity}
    (h : keyMatch t cid x = true) : x.title = t := by
  simp only [keyMatch, Bool.and_eq_true, beq_iff_eq] at h
  exact h.1

theorem upsert_frame (db : SeedDB) (cid : String) (a : ActivityInput) :
    (upsertActivity db cid a).1.classes = db.classes ∧
    (upsertActivity db cid a).1.studentProfiles = db.studentProfiles ∧
    (upsertActivity db cid a).1.submissions = db.submissions := by
  unfold upsertActivity
  cases h : db.classActivities.find? (keyMatch a.title cid) <;> simp

theorem find?_map_applied (a : ActivityInput) (cid : String) :
    ∀ (l : List SActivity) (x : SActivity),
      l.find? (keyMatch a.title cid) = some x →
      (l.map (fun y => if keyMatch a.title cid y then appliedFields a cid y else y)).find?
        (keyMatch a.title cid) = some (appliedFields a cid x)
  | [], x, h => by simp at h
  | z :: t, x, h => by
    cases hz : keyMatch a.title cid z with
    | true =>
      rw [List.find?_cons_of_pos _ hz] at h
      injection h with h
      subst h
      rw [List.map_cons, if_pos hz,
        List.find?_cons_of_pos _ (keyMatch_applied a cid z)]
    | false =>
      rw [List.find?_cons_of_neg _ (by simp [hz])] at h
      rw [List.map_cons, if_neg (by simp [hz]), List.find?_cons_of_neg _ (by simp [hz])]
      exact find?_map_applied a cid t x h

theorem keyMatch_base (a : ActivityInput) (cid : String) (aid : String) :
    keyMatch a.title cid
      { id := aid, title := a.title, description := a.description, type := a.type,
        status := a.status, deadline := a.deadline, classId := some cid,
        classGroupId := a.classGroupId, subjectId := a.subjectId,
        gradingCriteria := a.gradingCriteria, configuration := a.configuration } = true := by
  simp [keyMatch]

theorem upsert_find_self (db : SeedDB) (cid : String) (a : ActivityInput) :
    (upsertActivity db cid a).1.classActivities.find? (keyMatch a.title cid) =
      some (upsertActivity db cid a).2 := by
  cases h : db.classActivities.find? (keyMatch a.title cid) with
  | some x =>
    simp only [upsertActivity, h]
    exact find?_map_applied a cid db.classActivities x h
  | none =>
    simp only [upsertActivity, h]
    rw [find?_append_eq h, List.find?_cons_of_pos _ (keyMatch_base a cid _)]

theorem upsert_find_other (db : SeedDB) (cid : String) (a : ActivityInput)
    (t c2 : String) (hne : t ≠ a.title) :
    (upsertActivity db cid a).1.classActivities.find? (keyMatch t c2) =
      db.classActivities.find? (keyMatch t c2) := by
  cases h : db.classActivities.find? (keyMatch a.title cid) with
  | some x =>
    simp only [upsertActivity, h]
    apply find?_map_invariant
    · intro y _
      cases hky : keyMatch a.title cid y with
      | true =>
        have h1 : keyMatch t c2 (appliedFields a cid y) = false := by
          cases hk : keyMatch t c2 (appliedFields a cid y)
          · rfl
          · exact absurd (keyMatch_title hk).symm hne
        have h2 : keyMatch t c2 y = false := by
          cases hk : keyMatch t c2 y
          · rfl
          · have e1 : y.title = t := keyMatch_title hk
            have e2 : y.title = a.title := keyMatch_title hky
            rw [e1] at e2
            exact absurd e2 hne
        simp [h1, h2]
      | false => simp
    · intro y _ hpy
      have hyt : y.title = t := keyMatch_title hpy
      have hka : keyMatch a.title cid y = false := by
        cases hk : keyMatch a.title cid y
        · rfl
        · rw [keyMatch_title hk] at hyt
          exact absurd hyt.symm hne
      simp [hka]
  | none =>
    simp only [upsertActivity, h]
    apply find?_append_single_neg
    cases hk : keyMatch t c2 _
    · rfl
    · exact absurd (keyMatch_title hk).symm hne

theorem upsert_fixed_self (db : SeedDB) (cid : String) (a : ActivityInput) :
    ∀ z ∈ (upsertActivity db cid a).1.classActivities,
      keyMatch a.title cid z = true → appliedFields a cid z = z := by
  cases h : db.classActivities.find? (keyMatch a.title cid) with
  | some x =>
    simp only [upsertActivity, h]
    intro z hz hkz
    obtain ⟨y, hy, hfy⟩ := List.mem_map.mp hz
    cases hky : keyMatch a.title cid y with
    | true =>
      simp only [hky, if_pos] at hfy
      rw [← hfy]
      exact appliedFields_idem a cid y
    | false =>
      simp only [hky] at hfy
      simp at hfy
      subst hfy
      rw [hky] at hkz
      exact Bool.noConfusion hkz
  | none =>
    simp only [upsertActivity, h]
    intro z hz hkz
    rcases List.mem_append.mp hz with hl | hb
    · rw [List.find?_eq_none] at h
      exact absurd hkz (by simpa using h z hl)
    · rw [List.mem_singleton] at hb
      subst hb
      rfl

theorem upsert_fixed_other (db : SeedDB) (cid : String) (a : ActivityInput)
    (aT : ActivityInput) (c2 : String) (hne : aT.title ≠ a.title)
    (hfix : ∀ z ∈ db.classActivities, keyMatch aT.title c2 z = true →
      appliedFields aT c2 z = z) :
    ∀ z ∈ (upsertActivity db cid a).1.classActivities,
      keyMatch aT.title c2 z = true → appliedFields aT c2 z = z := by
  cases h : db.classActivities.find? (keyMatch a.title cid) with
  | some x =>
    simp only [upsertActivity, h]
    intro z hz hkz
    obtain ⟨y, hy, hfy⟩ := List.mem_map.mp hz
    cases hky : keyMatch a.title cid y with
    | true =>
      simp only [hky, if_pos] at hfy
      subst hfy
      have h1 : (appliedFields a cid y).title = aT.title := keyMatch_title hkz
      have h2 : (appliedFields a cid y).title = a.title := rfl
      rw [h2] at h1
      exact absurd h1.symm hne
    | false =>
      simp only [hky] at hfy
      simp at hfy
      subst hfy
      exact hfix y hy hkz
  | none =>
    simp only [upsertActivity, h]
    intro z hz hkz
    rcases List.mem_append.mp hz with hl | hb
    · exact hfix z hl hkz
    · rw [List.mem_singleton] at hb
      subst hb
      have h1 : a.title = aT.title := keyMatch_title hkz
      exact absurd h1.symm hne

theorem upsert_mem_other (db : SeedDB) (cid : String) (a : ActivityInput)
    (x : SActivity) (hx : x ∈ db.classActivities) (hne : x.title ≠ a.title) :
    x ∈ (upsertActivity db cid a).1.classActivities := by
  have hkx : keyMatch a.title cid x = false := by
    cases hk : keyMatch a.title cid x
    · rfl
    · exact absurd (keyMatch_title hk) hne
  cases h : db.classActivities.find? (keyMatch a.title cid) with
  | some y =>
    simp only [upsertActivity, h]
    have hid : (fun y => if keyMatch a.title cid y then appliedFields a cid y else y) x = x := by
      simp [hkx]
    exact hid ▸ List.mem_map_of_mem _ hx
  | none =>
    simp only [upsertActivity, h]
    exact List.mem_append_left _ hx

theorem upsert_identity (db : SeedDB) (cid : String) (a : ActivityInput)
    (hex : ∃ x ∈ db.classActivities, keyMatch a.title cid x = true)
    (hfix : ∀ z ∈ db.classActivities, keyMatch a.title cid z = true →
      appliedFields a cid z = z) :
    (upsertActivity db cid a).1 = db ∧
    db.classActivities.find? (keyMatch a.title cid) = some (upsertActivity db cid a).2 := by
  obtain ⟨x, hx, hkx⟩ := hex
  obtain ⟨x1, hfind, hkx1⟩ := find?_some_of_mem hx hkx
  have hmapid : db.classActivities.map
      (fun y => if keyMatch a.title cid y then appliedFields a cid y else y) =
      db.classActivities := by
    apply map_id_of_mem
    intro z hz
    cases hkz : keyMatch a.title cid z with
    | true => simpa using hfix z hz hkz
    | false => simp
  constructor
  · simp only [upsertActivity, hfind, hmapid]
  · simp only [upsertActivity, hfind]
    rw [hfix x1 (List.mem_of_find?_eq_some hfind) hkx1]

end Seed

namespace Seed

theorem upfold_frame (jobs : List (String × ActivityInput)) :
    ∀ st : SeedDB × List SActivity,
      (jobs.foldl upStep st).1.classes = st.1.classes ∧
      (jobs.foldl upStep st).1.studentProfiles = st.1.studentProfiles ∧
      (jobs.foldl upStep st).1.submissions = st.1.submissions := by
  induction jobs with
  | nil => intro st; exact ⟨rfl, rfl, rfl⟩
  | cons j rest ih =>
    intro st
    obtain ⟨h1, h2, h3⟩ := ih (upStep st j)
    obtain ⟨g1, g2, g3⟩ := upsert_frame st.1 j.1 j.2
    rw [List.foldl_cons]
    exact ⟨by rw [h1]; exact g1, by rw [h2]; exact g2, by rw [h3]; exact g3⟩

theorem upfold_persist (aT : ActivityInput) (cT : String) :
    ∀ (rest : List (String × ActivityInput)) (st : SeedDB × List SActivity),
      (∀ j ∈ rest, aT.title ≠ j.2.title) →
      ((rest.foldl upStep st).1.classActivities.find? (keyMatch aT.title cT) =
        st.1.classActivities.find? (keyMatch aT.title cT)) ∧
      ((∀ z ∈ st.1.classActivities, keyMatch aT.title cT z = true →
          appliedFields aT cT z = z) →
        (∀ z ∈ (rest.foldl upStep st).1.classActivities,
          keyMatch aT.title cT z = true → appliedFields aT cT z = z)) ∧
      (∀ x ∈ st.1.classActivities, x.title = aT.title →
        x ∈ (rest.foldl upStep st).1.classActivities) ∧
      (∀ x ∈ st.2, x ∈ (rest.foldl upStep st).2) := by
  intro rest
  induction rest with
  | nil => intro st _; exact ⟨rfl, fun h => h, fun x hx _ => hx, fun x hx => hx⟩
  | cons j t ih =>
    intro st hdiff
    have hd0 : aT.title ≠ j.2.title := hdiff j (by simp)
    have hdt : ∀ j' ∈ t, aT.title ≠ j'.2.title := fun j' hj' => hdiff j' (by simp [hj'])
    obtain ⟨i1, i2, i3, i4⟩ := ih (upStep st j) hdt
    rw [List.foldl_cons]
    refine ⟨?_, ?_, ?_, ?_⟩
    · rw [i1]
      exact upsert_find_other st.1 j.1 j.2 aT.title cT hd0
    · intro hfix
      exact i2 (upsert_fixed_other st.1 j.1 j.2 aT cT hd0 hfix)
    · intro x hx ht
      refine i3 x ?_ ht
      exact upsert_mem_other st.1 j.1 j.2 x hx (by rw [ht]; exact hd0)
    · intro x hx
      exact i4 x (List.mem_append_left _ hx)

theorem upfold_spec (jobs : List (String × ActivityInput)) :
    ∀ st : SeedDB × List SActivity,
      jobs.Pairwise (fun j1 j2 => j1.2.title ≠ j2.2.title) →
      ∀ j ∈ jobs,
        ∃ x, (jobs.foldl upStep st).1.classActivities.find?
            (keyMatch j.2.title j.1) = some x ∧
          x ∈ (jobs.foldl upStep st).2 ∧
          x ∈ (jobs.foldl upStep st).1.classActivities ∧
          (∀ z ∈ (jobs.foldl upStep st).1.classActivities,
            keyMatch j.2.title j.1 z = true → appliedFields j.2 j.1 z = z) := by
  induction jobs with
  | nil => intro st _ j hj; exact absurd hj (List.not_mem_nil j)
  | cons j0 rest ih =>
    intro st hpw j hj
    have hdiff : ∀ j' ∈ rest, j0.2.title ≠ j'.2.title :=
      fun j' hj' => (List.pairwise_cons.mp hpw).1 j' hj'
    have hrest := (List.pairwise_cons.mp hpw).2
    rcases List.mem_cons.mp hj with rfl | hjr
    · have hfind := upsert_find_self st.1 j.1 j.2
      have hfix := upsert_fixed_self st.1 j.1 j.2
      obtain ⟨p1, p2, p3, p4⟩ := upfold_persist j.2 j.1 rest (upStep st j) hdiff
      refine ⟨(upsertActivity st.1 j.1 j.2).2, ?_, ?_, ?_, ?_⟩
      · rw [List.foldl_cons, p1]
        exact hfind
      · rw [List.foldl_cons]
        exact p4 _ (List.mem_append_right _ (by simp [upStep]))
      · rw [List.foldl_cons]
        exact p3 _ (List.mem_of_find?_eq_some hfind)
          (keyMatch_title (List.find?_some hfind))
      · rw [List.foldl_cons]
        exact p2 hfix
    · rw [List.foldl_cons]
      exact ih (upStep st j0) hrest j hjr

theorem upfold_identity (jobs : List (String × ActivityInput)) :
    ∀ (db : SeedDB) (acc : List SActivity),
      (∀ j ∈ jobs, (∃ x ∈ db.classActivities, keyMatch j.2.title j.1 x = true) ∧
        (∀ z ∈ db.classActivities, keyMatch j.2.title j.1 z = true →
          appliedFields j.2 j.1 z = z)) →
      (jobs.foldl upStep (db, acc)).1 = db ∧
      (∀ x ∈ (jobs.foldl upStep (db, acc)).2, x ∈ acc ∨
        ∃ j ∈ jobs, db.classActivities.find? (keyMatch j.2.title j.1) = some x) := by
  induction jobs with
  | nil => intro db acc _; exact ⟨rfl, fun x hx => Or.inl hx⟩
  | cons j0 rest ih =>
    intro db acc h
    have h0 := h j0 (by simp)
    obtain ⟨hid, hfound⟩ := upsert_identity db j0.1 j0.2 h0.1 h0.2
    have hstep : upStep (db, acc) j0 = (db, acc ++ [(upsertActivity db j0.1 j0.2).2]) := by
      unfold upStep
      rw [hid]
    rw [List.foldl_cons, hstep]
    obtain ⟨ih1, ih2⟩ := ih db (acc ++ [(upsertActivity db j0.1 j0.2).2])
      (fun j hj => h j (by simp [hj]))
    refine ⟨ih1, ?_⟩
    intro x hx
    rcases ih2 x hx with hacc | ⟨j, hjr, hfx⟩
    · rcases List.mem_append.mp hacc with h1 | h2
      · exact Or.inl h1
      · right
        refine ⟨j0, by simp, ?_⟩
        rw [List.mem_singleton] at h2
        rw [h2]
        exact hfound
    · exact Or.inr ⟨j, by simp [hjr], hfx⟩

theorem upfold_members (jobs : List (String × ActivityInput)) :
    ∀ st : SeedDB × List SActivity,
      jobs.Pairwise (fun j1 j2 => j1.2.title ≠ j2.2.title) →
      (∀ x ∈ st.2, x ∈ st.1.classActivities ∧ ∀ j ∈ jobs, x.title ≠ j.2.title) →
      ∀ x ∈ (jobs.foldl upStep st).2,
        x ∈ (jobs.foldl upStep st).1.classActivities := by
  induction jobs with
  | nil => intro st _ hacc x hx; exact (hacc x hx).1
  | cons j0 rest ih =>
    intro st hpw hacc
    have hdiff : ∀ j' ∈ rest, j0.2.title ≠ j'.2.title :=
      fun j' hj' => (List.pairwise_cons.mp hpw).1 j' hj'
    have hrest := (List.pairwise_cons.mp hpw).2
    rw [List.foldl_cons]
    apply ih (upStep st j0) hrest
    intro x hx
    rcases List.mem_append.mp hx with hold | hnew
    · obtain ⟨hm, ht⟩ := hacc x hold
      constructor
      · exact upsert_mem_other st.1 j0.1 j0.2 x hm (ht j0 (by simp))
      · exact fun j hj => ht j (by simp [hj])
    · rw [List.mem_singleton] at hnew
      subst hnew
      have hfind := upsert_find_self st.1 j0.1 j0.2
      constructor
      · exact List.mem_of_find?_eq_some hfind
      · intro j hj
        rw [keyMatch_title (List.find?_some hfind)]
        exact hdiff j hj

end Seed

namespace Seed

theorem runUpserts_eq (st : SeedDB × List SActivity) (cid : String)
    (inputs : List ActivityInput) :
    runUpserts st cid inputs = (inputs.map (fun a => (cid, a))).foldl upStep st := by
  rw [runUpserts, List.foldl_map]

theorem phase1_fold_eq (subjects : List SSubject) (CLS : List SClass) :
    ∀ (L : List String) (st : SeedDB × List SActivity), st.1.classes = CLS →
      L.foldl (fun (st2 : SeedDB × List SActivity) cname =>
        match st2.1.classes.find? (fun c => c.name == cname) with
        | none => st2
        | some cls => runUpserts st2 cls.id (activityInputs cname cls.classGroupId subjects))
        st =
      (L.flatMap (jobsOfClass CLS subjects)).foldl upStep st := by
  intro L
  induction L with
  | nil => intro st _; rfl
  | cons c rest ih =>
    intro st hst
    rw [List.foldl_cons, List.flatMap_cons, List.foldl_append]
    cases hf : CLS.find? (fun c2 => c2.name == c) with
    | none =>
      have hstep : (match st.1.classes.find? (fun c2 => c2.name == c) with
          | none => st
          | some cls => runUpserts st cls.id (activityInputs c cls.classGroupId subjects)) =
          st := by
        rw [hst, hf]
      have hjc : jobsOfClass CLS subjects c = [] := by
        unfold jobsOfClass
        rw [hf]
      rw [hstep, hjc]
      exact ih st hst
    | some cls =>
      have hstep : (match st.1.classes.find? (fun c2 => c2.name == c) with
          | none => st
          | some cls => runUpserts st cls.id (activityInputs c cls.classGroupId subjects)) =
          runUpserts st cls.id (activityInputs c cls.classGroupId subjects) := by
        rw [hst, hf]
      have hjc : jobsOfClass CLS subjects c =
          (activityInputs c cls.classGroupId subjects).map (fun a => (cls.id, a)) := by
        unfold jobsOfClass
        rw [hf]
      rw [hstep, hjc, ← runUpserts_eq]
      apply ih
      rw [runUpserts_eq]
      rw [(upfold_frame _ _).1]
      exact hst

theorem seedPhase1_eq (db : SeedDB) (subjects : List SSubject) :
    seedPhase1 db subjects = (jobsOf db.classes subjects).foldl upStep (db, []) :=
  phase1_fold_eq subjects db.classes classNames (db, []) rfl

theorem jobsOfClass_title_mem (classes : List SClass) (subjects : List SSubject)
    (cname : String) :
    ∀ j ∈ jobsOfClass classes subjects cname,
      j.2.title = "Math Quiz - " ++ cname ∨
      j.2.title = "Vocabulary Game - " ++ cname ∨
      j.2.title = "Science Project - " ++ cname ∨
      j.2.title = "Reading Assignment - " ++ cname := by
  intro j hj
  unfold jobsOfClass at hj
  cases hf : classes.find? (fun c => c.name == cname) with
  | none => rw [hf] at hj; exact absurd hj (List.not_mem_nil j)
  | some cls =>
    rw [hf] at hj
    simp only [activityInputs, List.map_cons, List.map_nil, List.mem_cons,
      List.not_mem_nil, or_false] at hj
    rcases hj with rfl | rfl | rfl | rfl <;> simp

theorem strApp_ne (s1 s2 c : String) (h : s1 ≠ s2) : s1 ++ c ≠ s2 ++ c := by
  intro he
  apply h
  have hd : s1.data ++ c.data = s2.data ++ c.data := by
    have := congrArg String.data he
    simpa [String.data_append] using this
  have hdd : s1.data = s2.data := by
    exact List.append_cancel_right hd
  cases s1
  cases s2
  exact congrArg String.mk hdd

theorem jobsOfClass_pairwise (classes : List SClass) (subjects : List SSubject)
    (cname : String) :
    (jobsOfClass classes subjects cname).Pairwise
      (fun j1 j2 => j1.2.title ≠ j2.2.title) := by
  unfold jobsOfClass
  cases hf : classes.find? (fun c => c.name == cname) with
  | none => exact List.Pairwise.nil
  | some cls =>
    rw [List.pairwise_map]
    simp only [activityInputs, List.pairwise_cons, List.mem_cons, List.not_mem_nil,
      or_false]
    refine ⟨?_, ?_, ?_, fun a' h => h.elim, List.Pairwise.nil⟩
    · rintro a' (rfl | rfl | rfl) <;> exact strApp_ne _ _ cname (by decide)
    · rintro a' (rfl | rfl) <;> exact strApp_ne _ _ cname (by decide)
    · rintro a' rfl
      exact strApp_ne _ _ cname (by decide)

end Seed

namespace Seed

theorem jobsOf_pairwise (classes : List SClass) (subjects : List SSubject) :
    (jobsOf classes subjects).Pairwise (fun j1 j2 => j1.2.title ≠ j2.2.title) := by
  unfold jobsOf classNames
  rw [List.flatMap_cons, List.flatMap_cons, List.flatMap_cons, List.flatMap_nil,
    List.append_nil]
  rw [List.pairwise_append]
  refine ⟨jobsOfClass_pairwise classes subjects _, ?_, ?_⟩
  · rw [List.pairwise_append]
    refine ⟨jobsOfClass_pairwise classes subjects _,
      jobsOfClass_pairwise classes subjects _, ?_⟩
    intro j1 h1 j2 h2
    rcases jobsOfClass_title_mem classes subjects _ j1 h1 with e1 | e1 | e1 | e1 <;>
    rcases jobsOfClass_title_mem classes subjects _ j2 h2 with e2 | e2 | e2 | e2 <;>
    rw [e1, e2] <;> decide
  · intro j1 h1 j2 h2'
    rcases List.mem_append.mp h2' with h2 | h2 <;>
    rcases jobsOfClass_title_mem classes subjects _ j1 h1 with e1 | e1 | e1 | e1 <;>
    rcases jobsOfClass_title_mem classes subjects _ j2 h2 with e2 | e2 | e2 | e2 <;>
    rw [e1, e2] <;> decide

end Seed

namespace Seed

theorem subfold_spec (now : Nat) (rand : Nat → Nat) (a : SActivity) :
    ∀ (l : List SStudent) (acc : SeedDB × Nat),
      ∃ news,
        (l.foldl (subStep now rand a) acc).1.submissions = acc.1.submissions ++ news ∧
        (∀ sub ∈ news, ∃ k uid sid, sub = mkSeedSubmission now (rand k) a uid sid) ∧
        (∀ s ∈ l, ∃ sub ∈ news, sub.studentId = s.userId) ∧
        (l.foldl (subStep now rand a) acc).1.classes = acc.1.classes ∧
        (l.foldl (subStep now rand a) acc).1.classActivities = acc.1.classActivities ∧
        (l.foldl (subStep now rand a) acc).1.studentProfiles = acc.1.studentProfiles := by
  intro l
  induction l with
  | nil =>
    intro acc
    exact ⟨[], by simp, by simp, by simp, rfl, rfl, rfl⟩
  | cons s t ih =>
    intro acc
    obtain ⟨news, h1, h2, h3, h4, h5, h6⟩ := ih (subStep now rand a acc s)
    refine ⟨mkSeedSubmission now (rand acc.2) a s.userId (freshId acc.1.nextId) :: news,
      ?_, ?_, ?_, ?_, ?_, ?_⟩
    · rw [List.foldl_cons, h1]
      show (subStep now rand a acc s).1.submissions ++ news = _
      simp [subStep]
    · intro sub hsub
      rcases List.mem_cons.mp hsub with rfl | hs2
      · exact ⟨acc.2, s.userId, freshId acc.1.nextId, rfl⟩
      · exact h2 sub hs2
    · intro s2 hs2
      rcases List.mem_cons.mp hs2 with rfl | hmem
      · exact ⟨_, List.mem_cons_self _ _, rfl⟩
      · obtain ⟨sub, hm, he⟩ := h3 s2 hmem
        exact ⟨sub, List.mem_cons_of_mem _ hm, he⟩
    · rw [List.foldl_cons, h4]; rfl
    · rw [List.foldl_cons, h5]; rfl
    · rw [List.foldl_cons, h6]; rfl

theorem seedSubs_eq (now : Nat) (rand : Nat → Nat) (students : List SStudent)
    (st : SeedDB × Nat) (a : SActivity) :
    seedSubsForActivity now rand students st a =
      (students.filter (fun s => !(((st.1.submissions.filter (fun s2 =>
          s2.activityId == a.id && students.any (fun u => u.userId == s2.studentId))).map
          SSubmission.studentId).contains s.userId))).foldl
        (subStep now rand a) (st.1, st.2) := rfl

theorem seedSubs_spec (now : Nat) (rand : Nat → Nat) (students : List SStudent)
    (st : SeedDB × Nat) (a : SActivity) :
    ∃ news,
      (seedSubsForActivity now rand students st a).1.submissions =
        st.1.submissions ++ news ∧
      (∀ sub ∈ news, ∃ k uid sid, sub = mkSeedSubmission now (rand k) a uid sid) ∧
      (seedSubsForActivity now rand students st a).1.classes = st.1.classes ∧
      (seedSubsForActivity now rand students st a).1.classActivities =
        st.1.classActivities ∧
      (seedSubsForActivity now rand students st a).1.studentProfiles =
        st.1.studentProfiles ∧
      (∀ s ∈ students, hasSub (seedSubsForActivity now rand students st a).1
        a.id s.userId) := by
  obtain ⟨news, h1, h2, h3, h4, h5, h6⟩ := subfold_spec now rand a
    (students.filter (fun s => !(((st.1.submissions.filter (fun s2 =>
      s2.activityId == a.id && students.any (fun u => u.userId == s2.studentId))).map
      SSubmission.studentId).contains s.userId))) (st.1, st.2)
  rw [seedSubs_eq]
  refine ⟨news, h1, h2, h4, h5, h6, ?_⟩
  intro s hs
  cases hcon : ((st.1.submissions.filter (fun s2 =>
      s2.activityId == a.id && students.any (fun u => u.userId == s2.studentId))).map
      SSubmission.studentId).contains s.userId with
  | false =>
    have hmemf : s ∈ students.filter (fun s => !(((st.1.submissions.filter (fun s2 =>
        s2.activityId == a.id && students.any (fun u => u.userId == s2.studentId))).map
        SSubmission.studentId).contains s.userId)) := by
      rw [List.mem_filter]
      exact ⟨hs, by rw [hcon]; rfl⟩
    obtain ⟨sub, hsubm, hsid⟩ := h3 s hmemf
    obtain ⟨k, uid, sid, hmk⟩ := h2 sub hsubm
    refine ⟨sub, ?_, ?_, hsid⟩
    · rw [h1]
      exact List.mem_append_right _ hsubm
    · rw [hmk]
      rfl
  | true =>
    have hmem : s.userId ∈ (st.1.submissions.filter (fun s2 =>
        s2.activityId == a.id && students.any (fun u => u.userId == s2.studentId))).map
        SSubmission.studentId := by
      have := List.elem_iff.mp hcon
      exact this
    obtain ⟨sub, hsubf, hsid⟩ := List.mem_map.mp hmem
    have hsubm := List.mem_filter.mp hsubf
    refine ⟨sub, ?_, ?_, hsid⟩
    · rw [h1]
      exact List.mem_append_left _ hsubm.1
    · have := hsubm.2
      simp only [Bool.and_eq_true, beq_iff_eq] at this
      exact this.1

end Seed

namespace Seed

theorem hasSub_mono {db db2 : SeedDB} {aid uid : String}
    (h : hasSub db aid uid) (news : List SSubmission)
    (heq : db2.submissions = db.submissions ++ news) : hasSub db2 aid uid := by
  obtain ⟨sub, hm, he⟩ := h
  exact ⟨sub, by rw [heq]; exact List.mem_append_left _ hm, he⟩

theorem phase2_spec (now : Nat) (rand : Nat → Nat) (students : List SStudent) :
    ∀ (cs : List SActivity) (st : SeedDB × Nat),
      (cs.foldl (seedSubsForActivity now rand students) st).1.classes = st.1.classes ∧
      (cs.foldl (seedSubsForActivity now rand students) st).1.classActivities =
        st.1.classActivities ∧
      (cs.foldl (seedSubsForActivity now rand students) st).1.studentProfiles =
        st.1.studentProfiles ∧
      ∃ news,
        (cs.foldl (seedSubsForActivity now rand students) st).1.submissions =
          st.1.submissions ++ news ∧
        (∀ sub ∈ news, ∃ a ∈ cs, ∃ k uid sid,
          sub = mkSeedSubmission now (rand k) a uid sid) ∧
        (∀ a ∈ cs, ∀ s ∈ students,
          hasSub (cs.foldl (seedSubsForActivity now rand students) st).1
            a.id s.userId) := by
  intro cs
  induction cs with
  | nil =>
    intro st
    refine ⟨rfl, rfl, rfl, [], by simp, by simp, by simp⟩
  | cons a0 rest ih =>
    intro st
    obtain ⟨news0, ge, gmk, g1, g2, g3, gcov⟩ :=
      seedSubs_spec now rand students st a0
    obtain ⟨i1, i2, i3, news1, ie, imk, icov⟩ :=
      ih (seedSubsForActivity now rand students st a0)
    rw [List.foldl_cons]
    refine ⟨by rw [i1]; exact g1, by rw [i2]; exact g2, by rw [i3]; exact g3,
      news0 ++ news1, ?_, ?_, ?_⟩
    · rw [ie, ge, List.append_assoc]
    · intro sub hsub
      rcases List.mem_append.mp hsub with h0 | h1
      · obtain ⟨k, uid, sid, hmk⟩ := gmk sub h0
        exact ⟨a0, by simp, k, uid, sid, hmk⟩
      · obtain ⟨a, ha, k, uid, sid, hmk⟩ := imk sub h1
        exact ⟨a, by simp [ha], k, uid, sid, hmk⟩
    · intro a ha s hs
      rcases List.mem_cons.mp ha with rfl | har
      · exact hasSub_mono (gcov s hs) news1 ie
      · exact icov a har s hs

theorem phase2_identity (now : Nat) (rand : Nat → Nat) (students : List SStudent) :
    ∀ (cs : List SActivity) (db : SeedDB) (ctr : Nat),
      (∀ a ∈ cs, ∀ s ∈ students, hasSub db a.id s.userId) →
      cs.foldl (seedSubsForActivity now rand students) (db, ctr) = (db, ctr) := by
  intro cs
  induction cs with
  | nil => intro db ctr _; rfl
  | cons a0 rest ih =>
    intro db ctr h
    have hstep : seedSubsForActivity now rand students (db, ctr) a0 = (db, ctr) := by
      rw [seedSubs_eq]
      have hfe : students.filter (fun s => !(((db.submissions.filter (fun s2 =>
          s2.activityId == a0.id && students.any (fun u => u.userId == s2.studentId))).map
          SSubmission.studentId).contains s.userId)) = [] := by
        rw [List.filter_eq_nil_iff]
        intro s hs
        obtain ⟨sub, hm, he1, he2⟩ := h a0 (by simp) s hs
        have hcont : ((db.submissions.filter (fun s2 =>
            s2.activityId == a0.id && students.any (fun u => u.userId == s2.studentId))).map
            SSubmission.studentId).contains s.userId = true := by
          apply List.elem_iff.mpr
          rw [← he2]
          apply List.mem_map_of_mem
          rw [List.mem_filter]
          refine ⟨hm, ?_⟩
          simp only [Bool.and_eq_true, beq_iff_eq, List.any_eq_true]
          exact ⟨he1, s, hs, by rw [he2]⟩
        rw [hcont]
        simp
      rw [hfe]
      rfl
    rw [List.foldl_cons, hstep]
    exact ih db ctr (fun a ha s hs => h a (by simp [ha]) s hs)

end Seed

namespace Seed

theorem jobsOf_mem (classes : List SClass) (subjects : List SSubject)
    (j : String × ActivityInput) (hj : j ∈ jobsOf classes subjects) :
    ∃ cname ∈ classNames, ∃ cls,
      classes.find? (fun c => c.name == cname) = some cls ∧
      ∃ a ∈ activityInputs cname cls.classGroupId subjects, j = (cls.id, a) := by
  unfold jobsOf at hj
  obtain ⟨cname, hcn, hj2⟩ := List.mem_flatMap.mp hj
  refine ⟨cname, hcn, ?_⟩
  unfold jobsOfClass at hj2
  cases hf : classes.find? (fun c => c.name == cname) with
  | none => rw [hf] at hj2; exact absurd hj2 (List.not_mem_nil j)
  | some cls =>
    rw [hf] at hj2
    obtain ⟨a, ha, hae⟩ := List.mem_map.mp hj2
    exact ⟨cls, rfl, a, ha, hae.symm⟩

theorem jobsOf_mem_of (classes : List SClass) (subjects : List SSubject)
    (cname : String) (hcn : cname ∈ classNames) (cls : SClass)
    (hf : classes.find? (fun c => c.name == cname) = some cls)
    (a : ActivityInput) (ha : a ∈ activityInputs cname cls.classGroupId subjects) :
    (cls.id, a) ∈ jobsOf classes subjects := by
  unfold jobsOf
  rw [List.mem_flatMap]
  refine ⟨cname, hcn, ?_⟩
  unfold jobsOfClass
  rw [hf]
  exact List.mem_map_of_mem _ ha

theorem seedActivities_eq (db : SeedDB) (subjects : List SSubject)
    (rand : Nat → Nat) (now : Nat) :
    seedActivities db subjects rand now =
      (if (decide ((seedPhase1 db subjects).1.studentProfiles.length > 0) &&
           decide ((seedPhase1 db subjects).2.length > 0)) = true
       then (((seedPhase1 db subjects).2.foldl
           (seedSubsForActivity now rand (seedPhase1 db subjects).1.studentProfiles)
           ((seedPhase1 db subjects).1, 0)).1, (seedPhase1 db subjects).2)
       else ((seedPhase1 db subjects).1, (seedPhase1 db subjects).2)) := rfl

theorem seed_identity (db : SeedDB) (subjects : List SSubject) (rand : Nat → Nat)
    (now : Nat) (hstable : StableFor subjects db) (hcov : Covered subjects db) :
    (seedActivities db subjects rand now).1 = db := by
  have hjobs : ∀ j ∈ jobsOf db.classes subjects,
      (∃ x ∈ db.classActivities, keyMatch j.2.title j.1 x = true) ∧
      (∀ z ∈ db.classActivities, keyMatch j.2.title j.1 z = true →
        appliedFields j.2 j.1 z = z) := by
    intro j hj
    obtain ⟨cname, hcn, cls, hcls, a, ha, hje⟩ := jobsOf_mem db.classes subjects j hj
    subst hje
    exact hstable cname hcn cls hcls a ha
  obtain ⟨hid, hcr⟩ := upfold_identity (jobsOf db.classes subjects) db [] hjobs
  have hp1 := seedPhase1_eq db subjects
  have hdb1 : (seedPhase1 db subjects).1 = db := by rw [hp1]; exact hid
  have hcov2 : ∀ x ∈ (seedPhase1 db subjects).2, ∀ s ∈ db.studentProfiles,
      hasSub db x.id s.userId := by
    intro x hx s hs
    rw [hp1] at hx
    rcases hcr x hx with h | ⟨j, hj, hfx⟩
    · exact absurd h (List.not_mem_nil x)
    · obtain ⟨cname, hcn, cls, hcls, a, ha, hje⟩ := jobsOf_mem db.classes subjects j hj
      subst hje
      exact hcov cname hcn cls hcls a ha x hfx s hs
  rw [seedActivities_eq]
  cases hcond : (decide ((seedPhase1 db subjects).1.studentProfiles.length > 0) &&
      decide ((seedPhase1 db subjects).2.length > 0)) with
  | false =>
    rw [if_neg Bool.false_ne_true]
    exact hdb1
  | true =>
    rw [if_pos rfl]
    show ((seedPhase1 db subjects).2.foldl
      (seedSubsForActivity now rand (seedPhase1 db subjects).1.studentProfiles)
      ((seedPhase1 db subjects).1, 0)).1 = db
    rw [hdb1]
    rw [phase2_identity now rand db.studentProfiles (seedPhase1 db subjects).2 db 0 hcov2]

theorem seed_establishes (db : SeedDB) (subjects : List SSubject)
    (rand : Nat → Nat) (now : Nat) :
    StableFor subjects (seedActivities db subjects rand now).1 ∧
    Covered subjects (seedActivities db subjects rand now).1 := by
  have hp1 := seedPhase1_eq db subjects
  have hpw := jobsOf_pairwise db.classes subjects
  obtain ⟨hf1, hf2, hf3⟩ := upfold_frame (jobsOf db.classes subjects) (db, [])
  have hjob := upfold_spec (jobsOf db.classes subjects) (db, []) hpw
  have key : ∀ F : SeedDB,
      F.classes = (seedPhase1 db subjects).1.classes →
      F.classActivities = (seedPhase1 db subjects).1.classActivities →
      (∀ x ∈ (seedPhase1 db subjects).2, ∀ s ∈ F.studentProfiles,
        hasSub F x.id s.userId) →
      StableFor subjects F ∧ Covered subjects F := by
    intro F e1 e2 hcv
    constructor
    · intro cname hcn cls hcls a ha
      have hcls2 : db.classes.find? (fun c => c.name == cname) = some cls := by
        rw [e1, hp1, hf1] at hcls
        exact hcls
      have hj : (cls.id, a) ∈ jobsOf db.classes subjects :=
        jobsOf_mem_of db.classes subjects cname hcn cls hcls2 a ha
      obtain ⟨x, hfind, hxcr, hxmem, hfix⟩ := hjob (cls.id, a) hj
      constructor
      · refine ⟨x, ?_, List.find?_some hfind⟩
        rw [e2, hp1]
        exact List.mem_of_find?_eq_some hfind
      · intro z hz hkz
        refine hfix z ?_ hkz
        rw [e2, hp1] at hz
        exact hz
    · intro cname hcn cls hcls a ha x hfx s hs
      have hcls2 : db.classes.find? (fun c => c.name == cname) = some cls := by
        rw [e1, hp1, hf1] at hcls
        exact hcls
      have hj : (cls.id, a) ∈ jobsOf db.classes subjects :=
        jobsOf_mem_of db.classes subjects cname hcn cls hcls2 a ha
      obtain ⟨x0, hfind, hx0cr, _, _⟩ := hjob (cls.id, a) hj
      have hxx : x = x0 := by
        rw [e2, hp1] at hfx
        rw [hfx] at hfind
        exact Option.some.inj hfind
      subst hxx
      refine hcv x ?_ s hs
      rw [hp1]
      exact hx0cr
  rw [seedActivities_eq]
  cases hcond : (decide ((seedPhase1 db subjects).1.studentProfiles.length > 0) &&
      decide ((seedPhase1 db subjects).2.length > 0)) with
  | true =>
    rw [if_pos rfl]
    obtain ⟨p1, p2, p3, news, pe, pmk, pcov⟩ :=
      phase2_spec now rand (seedPhase1 db subjects).1.studentProfiles
        (seedPhase1 db subjects).2 ((seedPhase1 db subjects).1, 0)
    apply key
    · exact p1
    · exact p2
    · intro x hx s hs
      rw [p3] at hs
      exact pcov x hx s hs
  | false =>
    rw [if_neg Bool.false_ne_true]
    have hsplit : (seedPhase1 db subjects).1.studentProfiles = [] ∨
        (seedPhase1 db subjects).2 = [] := by
      by_contra hno
      push_neg at hno
      have h1 : (seedPhase1 db subjects).1.studentProfiles.length > 0 :=
        List.length_pos.mpr hno.1
      have h2 : (seedPhase1 db subjects).2.length > 0 := List.length_pos.mpr hno.2
      rw [decide_eq_true h1, decide_eq_true h2] at hcond
      exact Bool.noConfusion hcond
    apply key
    · rfl
    · rfl
    · intro x hx s hs
      rcases hsplit with he | he
      · rw [he] at hs
        exact absurd hs (List.not_mem_nil s)
      · rw [he] at hx
        exact absurd hx (List.not_mem_nil x)

end Seed

/-- C5: running seedActivities twice over the same classes and students is
idempotent with respect to record existence: the second run leaves the state
exactly as the first run left it, so in particular it creates no new
activity rows and no new submission rows. -/
theorem seedActivities_idempotent (db : Seed.SeedDB) (subjects : List Seed.SSubject)
    (rand1 : Nat → Nat) (now1 : Nat) (rand2 : Nat → Nat) (now2 : Nat) :
    (Seed.seedActivities (Seed.seedActivities db subjects rand1 now1).1 subjects
        rand2 now2).1 = (Seed.seedActivities db subjects rand1 now1).1 ∧
    (Seed.seedActivities (Seed.seedActivities db subjects rand1 now1).1 subjects
        rand2 now2).1.classActivities.length =
      (Seed.seedActivities db subjects rand1 now1).1.classActivities.length ∧
    (Seed.seedActivities (Seed.seedActivities db subjects rand1 now1).1 subjects
        rand2 now2).1.submissions =
      (Seed.seedActivities db subjects rand1 now1).1.submissions := by
  have h := Seed.seed_identity (Seed.seedActivities db subjects rand1 now1).1 subjects
    rand2 now2 (Seed.seed_establishes db subjects rand1 now1).1
    (Seed.seed_establishes db subjects rand1 now1).2
  exact ⟨h, by rw [h], by rw [h]⟩

/-- C6: every submission generated by a seedActivities run has total marks
100, obtained marks equal to a random sample below 100, and a passing flag
holding exactly when the obtained marks reach 60; submissions of activities
whose type starts with QUIZ_ or GAME_ are GRADED by "SYSTEM" with the
current time as grading timestamp and AUTOMATIC grading, all others are
SUBMITTED with no grader, no grading timestamp and MANUAL grading. -/
theorem seed_submission_fields (db : Seed.SeedDB) (subjects : List Seed.SSubject)
    (rand : Nat → Nat) (now : Nat) (hrand : ∀ k, rand k < 100) :
    ∀ sub ∈ (Seed.seedActivities db subjects rand now).1.submissions,
      sub ∉ db.submissions →
      sub.totalMarks = 100 ∧ sub.obtainedMarks < 100 ∧
      (sub.isPassing = true ↔ 60 ≤ sub.obtainedMarks) ∧
      ∃ a ∈ (Seed.seedActivities db subjects rand now).1.classActivities,
        sub.activityId = a.id ∧
        ((Seed.startsWith a.type "QUIZ_" || Seed.startsWith a.type "GAME_") = true →
          sub.status = "GRADED" ∧ sub.gradedBy = some "SYSTEM" ∧
          sub.gradedAt = some now ∧ sub.gradingType = "AUTOMATIC") ∧
        ((Seed.startsWith a.type "QUIZ_" || Seed.startsWith a.type "GAME_") = false →
          sub.status = "SUBMITTED" ∧ sub.gradedBy = none ∧
          sub.gradedAt = none ∧ sub.gradingType = "MANUAL") := by
  intro sub hsub hnot
  have hp1 := Seed.seedPhase1_eq db subjects
  have hpw := Seed.jobsOf_pairwise db.classes subjects
  obtain ⟨hf1, hf2, hf3⟩ := Seed.upfold_frame (Seed.jobsOf db.classes subjects) (db, [])
  have hpsub : (Seed.seedPhase1 db subjects).1.submissions = db.submissions := by
    rw [hp1]
    exact hf3
  rw [Seed.seedActivities_eq] at hsub
  rw [Seed.seedActivities_eq]
  cases hcond : (decide ((Seed.seedPhase1 db subjects).1.studentProfiles.length > 0) &&
      decide ((Seed.seedPhase1 db subjects).2.length > 0)) with
  | false =>
    rw [hcond, if_neg Bool.false_ne_true] at hsub
    exact absurd (show sub ∈ db.submissions by rw [← hpsub]; exact hsub) hnot
  | true =>
    rw [hcond, if_pos rfl] at hsub
    rw [if_pos rfl]
    obtain ⟨p1, p2, p3, news, pe, pmk, pcov⟩ :=
      Seed.phase2_spec now rand (Seed.seedPhase1 db subjects).1.studentProfiles
        (Seed.seedPhase1 db subjects).2 ((Seed.seedPhase1 db subjects).1, 0)
    rw [pe] at hsub
    rcases List.mem_append.mp hsub with hold | hnew
    · exact absurd (show sub ∈ db.submissions by rw [← hpsub]; exact hold) hnot
    · obtain ⟨a, hacr, k, uid, sid, hmk⟩ := pmk sub hnew
      have hamem : a ∈ ((Seed.seedPhase1 db subjects).2.foldl
          (Seed.seedSubsForActivity now rand
            (Seed.seedPhase1 db subjects).1.studentProfiles)
          ((Seed.seedPhase1 db subjects).1, 0)).1.classActivities := by
        rw [p2]
        show a ∈ (Seed.seedPhase1 db subjects).1.classActivities
        rw [hp1]
        refine Seed.upfold_members (Seed.jobsOf db.classes subjects) (db, []) hpw
          (fun x hx => absurd hx (List.not_mem_nil x)) a ?_
        rw [← hp1]
        exact hacr
      subst hmk
      refine ⟨rfl, hrand k, ?_, a, hamem, rfl, ?_, ?_⟩
      · show (decide (rand k ≥ 60)) = true ↔ 60 ≤ rand k
        exact decide_eq_true_iff
      · intro hauto
        simp [Seed.mkSeedSubmission, hauto]
      · intro hman
        simp [Seed.mkSeedSubmission, hman]

/-- Witness for C6 on the fixture state: the submission generated for the
auto-graded math quiz carries exactly the documented fields. -/
theorem seed_submission_fields_witness :
    (∀ k : Nat, (fun _ : Nat => (42 : Nat)) k < 100) ∧
    c6sub ∈ (Seed.seedActivities c6db [] (fun _ => 42) 7).1.submissions ∧
    c6sub ∉ c6db.submissions ∧
    (c6sub.totalMarks = 100 ∧ c6sub.obtainedMarks < 100 ∧
      (c6sub.isPassing = true ↔ 60 ≤ c6sub.obtainedMarks) ∧
      ∃ a ∈ (Seed.seedActivities c6db [] (fun _ => 42) 7).1.classActivities,
        c6sub.activityId = a.id ∧
        ((Seed.startsWith a.type "QUIZ_" || Seed.startsWith a.type "GAME_") = true →
          c6sub.status = "GRADED" ∧ c6sub.gradedBy = some "SYSTEM" ∧
          c6sub.gradedAt = some 7 ∧ c6sub.gradingType = "AUTOMATIC") ∧
        ((Seed.startsWith a.type "QUIZ_" || Seed.startsWith a.type "GAME_") = false →
          c6sub.status = "SUBMITTED" ∧ c6sub.gradedBy = none ∧
          c6sub.gradedAt = none ∧ c6sub.gradingType = "MANUAL")) := by
  have hmem : c6sub ∈ (Seed.seedActivities c6db [] (fun _ => 42) 7).1.submissions := by
    have hget : (Seed.seedActivities c6db [] (fun _ => 42) 7).1.submissions.get? 0 =
        some c6sub := by rfl
    exact List.get?_mem hget
  have hnot : c6sub ∉ c6db.submissions := by simp [c6db]
  exact ⟨fun k => by show (42 : Nat) < 100; decide, hmem, hnot,
    seed_submission_fields c6db [] (fun _ => 42) 7
      (fun k => by show (42 : Nat) < 100; decide) c6sub hmem hnot⟩
